import Mathlib

/-!
Verification development for the chiropractor directory-and-blog backend.

The definitions below are a shallow embedding of the JavaScript source:
the validation middleware (`middleware/validate.js`), the authentication
middleware (`middleware/auth.js`), the slug helper and blog routes
(`routes/blog.js`), the chiropractor, settings, admin and auth routes, and
the relational state they manipulate (tables `users`, `chiropractors`,
`blog_posts`, `site_settings`, `audit_log` from `scripts/init-db.js`).
Strings are `String`/`List Char`, SQL tables are Lean lists, and each HTTP
handler becomes a pure function from request data and a database state to a
response and a new database state.  External npm libraries that are not part
of the repository (`xss`, `validator`, `jsonwebtoken`, `bcrypt`) are modelled
explicitly where their behaviour matters and are marked as such.
-/

/-! ## JavaScript string primitives -/

/-- Whitespace characters removed by JavaScript `String.prototype.trim` and
matched by the regex class `\s` (the common code points). -/
def isJsWs (c : Char) : Bool :=
  [9, 10, 11, 12, 13, 32, 160, 8232, 8233, 65279].contains c.toNat

/-- Removal of a matching run of characters from both ends of a list, the
common shape of JavaScript `trim` and of `.replace(/^-+|-+$/g, '')`. -/
def dropEnds {α : Type} (p : α → Bool) (l : List α) : List α :=
  ((l.dropWhile p).reverse.dropWhile p).reverse

/-- JavaScript `trim` on a character list: drop whitespace from both ends. -/
def jsTrimL (l : List Char) : List Char := dropEnds isJsWs l

/-- JavaScript `value.trim()` for strings. -/
def jsTrimStr (s : String) : String := ⟨jsTrimL s.data⟩

/-- ASCII lower-casing of one character, the effect of JavaScript
`toLowerCase` on the ASCII range (code points 65–90 map to 97–122). -/
def asciiLower (c : Char) : Char :=
  if 65 ≤ c.toNat ∧ c.toNat ≤ 90 then Char.ofNat (c.toNat + 32) else c

/-- JavaScript `toLowerCase` on a string, restricted to its ASCII action. -/
def jsLowerStr (s : String) : String := ⟨s.data.map asciiLower⟩

/-! ## Sanitizer (`sanitizeInput` in `middleware/validate.js`) -/

/-- Modelled from the spec: the `xss` npm library is not vendored in the
repository; §4.2 requires free text to be neutralised by escaping markup so
that tags cannot execute.  One character of that escaping: `<` and `>`
become the HTML entities `&lt;` and `&gt;`, every other character is kept. -/
def escChar (c : Char) : List Char :=
  if c = '<' then ['&', 'l', 't', ';']
  else if c = '>' then ['&', 'g', 't', ';'] else [c]

/-- Modelled from the spec: the `xss` npm library's filter on a character
list, i.e. escaping applied to every character. -/
def xssEscapeL (l : List Char) : List Char := l.flatMap escChar

/-- Modelled from the spec: the `xss(...)` call used by `sanitizeInput`. -/
def xssEscape (s : String) : String := ⟨xssEscapeL s.data⟩

/-- JavaScript values as they occur in a JSON request body; `sanitizeInput`
branches on `typeof value === 'string'`. -/
inductive JsValue where
  | str (s : String)
  | num (n : Int)
  | bool (b : Bool)
  | null
  | undef
  | arr (xs : List JsValue)
  | obj (fields : List (String × JsValue))

/-- Embedding of `sanitizeInput` from `middleware/validate.js`: strings are
trimmed and passed through the XSS filter, every other value is returned
unchanged. -/
def sanitizeInput (v : JsValue) : JsValue :=
  match v with
  | .str s => .str (xssEscape (jsTrimStr s))
  | v => v

/-- String-level core of `sanitizeInput`, as applied by the
`customSanitizer(sanitizeInput)` steps of the validation chains. -/
def sanitizeStr (s : String) : String := xssEscape (jsTrimStr s)

/-! ## Slug generator (`createSlug` in `routes/blog.js`) -/

/-- Characters kept by the slug regex class `[a-z0-9]`. -/
def isSlugChar (c : Char) : Bool :=
  decide ((97 ≤ c.toNat ∧ c.toNat ≤ 122) ∨ (48 ≤ c.toNat ∧ c.toNat ≤ 57))

/-- Replacement of every maximal run of characters outside `[a-z0-9]` by a
single hyphen, the effect of `.replace(/[^a-z0-9]+/g, '-')`.  The boolean
flag records whether the previous character was part of such a run (so the
hyphen for the run has already been emitted). -/
def collapseRunsAux : List Char → Bool → List Char
  | [], _ => []
  | c :: cs, inRun =>
    if isSlugChar c then c :: collapseRunsAux cs false
    else if inRun then collapseRunsAux cs true
    else '-' :: collapseRunsAux cs true

/-- Removal of leading and trailing hyphens, the effect of
`.replace(/^-+|-+$/g, '')`. -/
def stripHyphensL (l : List Char) : List Char := dropEnds (· == '-') l

/-- Embedding of the slug pipeline on character lists: lower-case, collapse
non-alphanumeric runs to hyphens, strip hyphens at the ends. -/
def createSlugL (l : List Char) : List Char :=
  stripHyphensL (collapseRunsAux (l.map asciiLower) false)

/-- Embedding of `createSlug(title)` from `routes/blog.js` (the same helper
also appears in `scripts/seed-data.js`). -/
def createSlug (title : String) : String := ⟨createSlugL title.data⟩

/-- Embedding of `createSlug(title, id)` with a non-empty disambiguating
suffix: the template literal produces `baseSlug + "-" + id`. -/
def createSlugSuffixed (title : String) (id : String) : String :=
  createSlug title ++ "-" ++ id

/-- Digit of a base-36 rendering, as produced by JavaScript
`Number.prototype.toString(36)`: `0`–`9` then `a`–`z`. -/
def digit36 (n : Nat) : Char :=
  if n < 10 then Char.ofNat (48 + n) else Char.ofNat (87 + n)

/-- Fuel-driven base-36 digit expansion of a natural number. -/
def toBase36Core : Nat → Nat → List Char
  | 0, _ => []
  | fuel + 1, n =>
    if n < 36 then [digit36 n]
    else toBase36Core fuel (n / 36) ++ [digit36 (n % 36)]

/-- Modelled from the spec: JavaScript `Date.now().toString(36)` applied to a
timestamp `n`; the base-36 rendering of a non-negative integer. -/
def toBase36 (n : Nat) : String := ⟨toBase36Core (n + 1) n⟩

/-- Decidable matcher for the tail of the slug shape: after a `[a-z0-9]`
character, the remaining input must consist of `[a-z0-9]` characters and
isolated hyphens each followed by a `[a-z0-9]` character. -/
def slugShapeAfter : List Char → Bool
  | [] => true
  | c :: cs =>
    if isSlugChar c then slugShapeAfter cs
    else if c = '-' then
      match cs with
      | [] => false
      | d :: ds => isSlugChar d && slugShapeAfter ds
    else false

/-- Decidable matcher for the regular expression
`^[a-z0-9]+(-[a-z0-9]+)*$` over a character list. -/
def slugRegexMatches : List Char → Bool
  | [] => false
  | c :: cs => isSlugChar c && slugShapeAfter cs

/-- ASCII alphanumeric characters `[a-zA-Z0-9]`, the reading of
"alphanumeric" in the slug property. -/
def isAsciiAlphanum (c : Char) : Bool :=
  decide ((97 ≤ c.toNat ∧ c.toNat ≤ 122) ∨ (65 ≤ c.toNat ∧ c.toNat ≤ 90) ∨
    (48 ≤ c.toNat ∧ c.toNat ≤ 57))

/-- Decidable check that no two adjacent characters are both hyphens. -/
def noAdjacentHyphens : List Char → Bool
  | [] => true
  | [_] => true
  | a :: b :: rest => !(a == '-' && b == '-') && noAdjacentHyphens (b :: rest)

/-! ## Relational data model (`scripts/init-db.js`) -/

/-- Row of the `users` table. -/
structure UserAccount where
  id : Nat
  email : String
  password : String
  name : String
  role : String
  is_active : Bool
  created_at : Nat
  deriving DecidableEq

/-- Row of the `chiropractors` table. -/
structure Chiropractor where
  id : Nat
  name : String
  state : String
  address : String
  phone : String
  email : String
  website : Option String
  specialty : Option String
  description : Option String
  is_featured : Bool
  is_active : Bool
  created_at : Nat
  deriving DecidableEq

/-- Row of the `blog_posts` table. -/
structure BlogPost where
  id : Nat
  title : String
  slug : String
  content : String
  excerpt : Option String
  author : String
  featured_image : Option String
  tags : List String
  meta_title : Option String
  meta_description : Option String
  is_published : Bool
  views : Nat
  created_at : Nat
  published_at : Option Nat
  deriving DecidableEq

/-- Row of the `site_settings` table. -/
structure Setting where
  id : Nat
  setting_key : String
  setting_value : Option String
  setting_type : String
  description : String
  deriving DecidableEq

/-- Values serialised by `JSON.stringify(...)` into the `old_values` and
`new_values` columns of `audit_log`: either a whole row, or one of the
partial objects the routes build by hand. -/
inductive Snapshot where
  | chiro (c : Chiropractor)
  | post (p : BlogPost)
  | setting (s : Setting)
  | settingValue (v : Option String)
  | settingsBulk (kvs : List (String × Option String))
  | publishFlag (b : Bool)
  deriving DecidableEq

/-- Row of the `audit_log` table. -/
structure AuditEntry where
  user_id : Option Nat
  action : String
  entity_type : Option String
  entity_id : Option Nat
  old_values : Option Snapshot
  new_values : Option Snapshot
  ip_address : Option String
  user_agent : Option String
  deriving DecidableEq

/-- The persistent store: one list per table, plus the next value of the
`SERIAL` id sequence. -/
structure DB where
  users : List UserAccount
  chiropractors : List Chiropractor
  blog_posts : List BlogPost
  site_settings : List Setting
  audit_log : List AuditEntry
  nextId : Nat
  deriving DecidableEq

/-- The `UPDATE ... SET is_active = $b` row transform on `chiropractors`. -/
def chiroSetActive (b : Bool) (c : Chiropractor) : Chiropractor :=
  ⟨c.id, c.name, c.state, c.address, c.phone, c.email, c.website,
   c.specialty, c.description, c.is_featured, b, c.created_at⟩

/-- The `UPDATE ... SET is_active = $b` row transform on `users`. -/
def userSetActive (b : Bool) (u : UserAccount) : UserAccount :=
  ⟨u.id, u.email, u.password, u.name, u.role, b, u.created_at⟩

/-- The `UPDATE ... SET is_published = $1, published_at = $2` row transform
on `blog_posts`. -/
def postSetPub (b : Bool) (t : Option Nat) (q : BlogPost) : BlogPost :=
  ⟨q.id, q.title, q.slug, q.content, q.excerpt, q.author, q.featured_image,
   q.tags, q.meta_title, q.meta_description, b, q.views, q.created_at, t⟩

/-- The `UPDATE ... SET setting_value = $1` row transform on
`site_settings`. -/
def settingSetValue (v : Option String) (s : Setting) : Setting :=
  ⟨s.id, s.setting_key, v, s.setting_type, s.description⟩

/-- The `UPDATE blog_posts SET views = views + 1` row transform. -/
def bumpViews (q : BlogPost) : BlogPost :=
  ⟨q.id, q.title, q.slug, q.content, q.excerpt, q.author, q.featured_image,
   q.tags, q.meta_title, q.meta_description, q.is_published, q.views + 1,
   q.created_at, q.published_at⟩

/-- Keyed lookup `WHERE id = $1` on `chiropractors`. -/
def findChiro (db : DB) (i : Nat) : Option Chiropractor :=
  db.chiropractors.find? (fun c => c.id == i)

/-- Keyed lookup `WHERE id = $1` on `blog_posts`. -/
def findPost (db : DB) (i : Nat) : Option BlogPost :=
  db.blog_posts.find? (fun p => p.id == i)

/-- Keyed lookup `WHERE setting_key = $1` on `site_settings`. -/
def findSetting (db : DB) (k : String) : Option Setting :=
  db.site_settings.find? (fun s => s.setting_key == k)

/-- Keyed lookup `WHERE id = $1` on `users`. -/
def findUser (db : DB) (i : Nat) : Option UserAccount :=
  db.users.find? (fun u => u.id == i)

/-- Keyed lookup `WHERE email = $1` on `users`. -/
def findUserByEmail (db : DB) (e : String) : Option UserAccount :=
  db.users.find? (fun u => u.email == e)

/-- Well-formedness of a database state: row ids are distinct and below the
id sequence, as the `SERIAL PRIMARY KEY` columns guarantee. -/
def DB.wf (db : DB) : Prop :=
  (db.users.map (·.id)).Nodup ∧ (∀ u ∈ db.users, u.id < db.nextId) ∧
  (db.chiropractors.map (·.id)).Nodup ∧
  (∀ c ∈ db.chiropractors, c.id < db.nextId) ∧
  (db.blog_posts.map (·.id)).Nodup ∧ (∀ p ∈ db.blog_posts, p.id < db.nextId) ∧
  (db.site_settings.map (·.id)).Nodup ∧
  (∀ s ∈ db.site_settings, s.id < db.nextId)

instance (db : DB) : Decidable db.wf := by
  unfold DB.wf
  infer_instance

/-! ## Response shapes -/

/-- One entry of the `details` array produced by `handleValidationErrors`. -/
structure FieldError where
  field : String
  message : String
  deriving DecidableEq

/-- Projection returned by the public single-chiropractor query, which
selects every column except `is_active` and `updated_at`. -/
structure ChiroView where
  id : Nat
  name : String
  state : String
  address : String
  phone : String
  email : String
  website : Option String
  specialty : Option String
  description : Option String
  is_featured : Bool
  created_at : Nat
  deriving DecidableEq

/-- Projection of a chiropractor row onto the publicly selected columns. -/
def chiroView (c : Chiropractor) : ChiroView :=
  ⟨c.id, c.name, c.state, c.address, c.phone, c.email, c.website, c.specialty,
   c.description, c.is_featured, c.created_at⟩

/-- Payload of a successful JSON response. -/
inductive RespData where
  | empty
  | chiro (c : Chiropractor)
  | chiroView (v : ChiroView)
  | post (p : BlogPost)
  | setting (s : Setting)
  | settingKV (key : String) (value : Option String)
  | bulkUpdated (rows : List (String × Option String))
  | userRow (u : UserAccount)
  | loginUser (id : Nat) (email : String) (name : String) (role : String)
      (token : String)
  deriving DecidableEq

/-- HTTP response of a modelled route: a success with a status code and a
payload, the `400 Validation failed` shape of `handleValidationErrors`, or an
error with a status code and a message. -/
inductive Resp where
  | ok (status : Nat) (data : RespData)
  | validationFailed (details : List FieldError)
  | err (status : Nat) (msg : String)
  deriving DecidableEq

/-! ## Modelled external validators (`validator` npm library) -/

/-- Substring test on character lists. -/
def containsSubL (h n : List Char) : Bool :=
  (List.range (h.length + 1)).any (fun i => n.isPrefixOf (h.drop i))

/-- Prefix test on strings (the JavaScript `startsWith`). -/
def strStartsWith (s pre : String) : Bool := pre.data.isPrefixOf s.data

/-- Modelled from the spec: validator.js `isEmail` (the `validator` library
is not vendored in the repository); simplified to requiring exactly one `@`,
a nonempty local part, a nonempty domain containing a dot, and no
whitespace. -/
def isEmailB (s : String) : Bool :=
  let l := s.data
  let lp := l.takeWhile (fun c => c != '@')
  let dom := (l.dropWhile (fun c => c != '@')).drop 1
  (l.count '@' == 1) && !lp.isEmpty && !dom.isEmpty && dom.contains '.' &&
    !l.any isJsWs

/-- Modelled from the spec: validator.js
`isURL({protocols: ['http', 'https']})`; simplified to a nonempty
whitespace-free string containing a dot whose protocol, when present, is
`http` or `https`. -/
def isURLB (s : String) : Bool :=
  !s.isEmpty && !s.data.any isJsWs && s.data.contains '.' &&
    (strStartsWith s "http://" || strStartsWith s "https://" ||
      !containsSubL s.data [':', '/', '/'])

/-- Modelled from the spec: validator.js `normalizeEmail` (library not
vendored); modelled as ASCII lower-casing of the address. -/
def normalizeEmailStr (s : String) : String := jsLowerStr s

/-! ## Validation chains (`middleware/validate.js`) -/

/-- Character class of the phone regex `/^[\d\s\-\(\)\+\.]+$/`. -/
def phoneCharOk (c : Char) : Bool :=
  c.isDigit || isJsWs c || (c == '-') || (c == '(') || (c == ')') ||
    (c == '+') || (c == '.')

/-- Test of the phone regex: at least one character, all from the class. -/
def matchesPhoneFormat (s : String) : Bool :=
  !s.isEmpty && s.data.all phoneCharOk

/-- Test of the settings-key regex `/^[a-z_]+$/`. -/
def matchesKeyFormat (s : String) : Bool :=
  !s.isEmpty &&
    s.data.all (fun c => decide ((97 ≤ c.toNat ∧ c.toNat ≤ 122) ∨ c = '_'))

/-- Chain `body('name')` of `chiropractorValidation`: trim, notEmpty,
isLength 2–255, customSanitizer(sanitizeInput). -/
def chainChiroName (v : Option String) : Option String × List FieldError :=
  let s := jsTrimStr (v.getD "")
  (some (sanitizeStr s),
    (if s.isEmpty then [⟨"name", "Name is required"⟩] else []) ++
    (if s.length < 2 ∨ 255 < s.length then
      [⟨"name", "Name must be between 2 and 255 characters"⟩] else []))

/-- Chain `body('state')`: trim, notEmpty, isLength max 100, sanitizer. -/
def chainChiroState (v : Option String) : Option String × List FieldError :=
  let s := jsTrimStr (v.getD "")
  (some (sanitizeStr s),
    (if s.isEmpty then [⟨"state", "State is required"⟩] else []) ++
    (if 100 < s.length then
      [⟨"state", "State must be less than 100 characters"⟩] else []))

/-- Chain `body('address')`: trim, notEmpty, isLength max 500, sanitizer. -/
def chainChiroAddress (v : Option String) : Option String × List FieldError :=
  let s := jsTrimStr (v.getD "")
  (some (sanitizeStr s),
    (if s.isEmpty then [⟨"address", "Address is required"⟩] else []) ++
    (if 500 < s.length then
      [⟨"address", "Address must be less than 500 characters"⟩] else []))

/-- Chain `body('phone')`: trim, notEmpty, matches the phone regex,
isLength max 50.  No sanitizer beyond the trim. -/
def chainChiroPhone (v : Option String) : Option String × List FieldError :=
  let s := jsTrimStr (v.getD "")
  (some s,
    (if s.isEmpty then [⟨"phone", "Phone is required"⟩] else []) ++
    (if matchesPhoneFormat s then [] else
      [⟨"phone", "Invalid phone number format"⟩]) ++
    (if 50 < s.length then
      [⟨"phone", "Phone must be less than 50 characters"⟩] else []))

/-- Chain `body('email')`: trim, notEmpty, isEmail, normalizeEmail,
isLength max 255. -/
def chainChiroEmail (v : Option String) : Option String × List FieldError :=
  let s := jsTrimStr (v.getD "")
  let n := normalizeEmailStr s
  (some n,
    (if s.isEmpty then [⟨"email", "Email is required"⟩] else []) ++
    (if isEmailB s then [] else [⟨"email", "Invalid email address"⟩]) ++
    (if 255 < n.length then
      [⟨"email", "Email must be less than 255 characters"⟩] else []))

/-- Chain `body('website')`: optional with checkFalsy, then trim, isURL,
isLength max 500. -/
def chainChiroWebsite (v : Option String) : Option String × List FieldError :=
  match v with
  | none => (none, [])
  | some s0 =>
    if s0.isEmpty then (some s0, []) else
    let s := jsTrimStr s0
    (some s,
      (if isURLB s then [] else [⟨"website", "Invalid website URL"⟩]) ++
      (if 500 < s.length then
        [⟨"website", "Website URL must be less than 500 characters"⟩] else []))

/-- Chain `body('specialty')`: optional with checkFalsy, trim, isLength max
255, sanitizer. -/
def chainChiroSpecialty (v : Option String) : Option String × List FieldError :=
  match v with
  | none => (none, [])
  | some s0 =>
    if s0.isEmpty then (some s0, []) else
    let s := jsTrimStr s0
    (some (sanitizeStr s),
      if 255 < s.length then
        [⟨"specialty", "Specialty must be less than 255 characters"⟩] else [])

/-- Chain `body('description')`: optional with checkFalsy, trim, sanitizer,
no validators. -/
def chainChiroDescription (v : Option String) :
    Option String × List FieldError :=
  match v with
  | none => (none, [])
  | some s0 =>
    if s0.isEmpty then (some s0, []) else
    (some (sanitizeStr (jsTrimStr s0)), [])

/-- Request body of the chiropractor write endpoints, before or after the
validation chains have run (the chains mutate `req.body` in place). -/
structure ChiroPayload where
  name : Option String
  state : Option String
  address : Option String
  phone : Option String
  email : Option String
  website : Option String
  specialty : Option String
  description : Option String
  is_featured : Option Bool
  deriving DecidableEq

/-- Embedding of the `chiropractorValidation` middleware list: every chain
runs (sanitizers included) and the errors are collected in declaration
order, exactly as `validationResult` sees them. -/
def chiroValidate (p : ChiroPayload) : ChiroPayload × List FieldError :=
  let n := chainChiroName p.name
  let st := chainChiroState p.state
  let ad := chainChiroAddress p.address
  let ph := chainChiroPhone p.phone
  let em := chainChiroEmail p.email
  let wb := chainChiroWebsite p.website
  let sp := chainChiroSpecialty p.specialty
  let de := chainChiroDescription p.description
  (⟨n.1, st.1, ad.1, ph.1, em.1, wb.1, sp.1, de.1, p.is_featured⟩,
    n.2 ++ st.2 ++ ad.2 ++ ph.2 ++ em.2 ++ wb.2 ++ sp.2 ++ de.2)

/-- Chain `body('title')` of `blogPostValidation`: trim, notEmpty, isLength
5–500, sanitizer. -/
def chainBlogTitle (v : Option String) : Option String × List FieldError :=
  let s := jsTrimStr (v.getD "")
  (some (sanitizeStr s),
    (if s.isEmpty then [⟨"title", "Title is required"⟩] else []) ++
    (if s.length < 5 ∨ 500 < s.length then
      [⟨"title", "Title must be between 5 and 500 characters"⟩] else []))

/-- Chain `body('content')`: trim, notEmpty, isLength min 50, sanitizer. -/
def chainBlogContent (v : Option String) : Option String × List FieldError :=
  let s := jsTrimStr (v.getD "")
  (some (sanitizeStr s),
    (if s.isEmpty then [⟨"content", "Content is required"⟩] else []) ++
    (if s.length < 50 then
      [⟨"content", "Content must be at least 50 characters"⟩] else []))

/-- Chain `body('author')`: trim, notEmpty, isLength max 255, sanitizer. -/
def chainBlogAuthor (v : Option String) : Option String × List FieldError :=
  let s := jsTrimStr (v.getD "")
  (some (sanitizeStr s),
    (if s.isEmpty then [⟨"author", "Author is required"⟩] else []) ++
    (if 255 < s.length then
      [⟨"author", "Author must be less than 255 characters"⟩] else []))

/-- Chain for an optional (checkFalsy) trimmed, length-bounded, sanitized
text field such as `excerpt`, `meta_title` or `meta_description`. -/
def chainOptText (f : String) (maxLen : Nat) (msg : String)
    (v : Option String) : Option String × List FieldError :=
  match v with
  | none => (none, [])
  | some s0 =>
    if s0.isEmpty then (some s0, []) else
    let s := jsTrimStr s0
    (some (sanitizeStr s), if maxLen < s.length then [⟨f, msg⟩] else [])

/-- Chain `body('featured_image')`: optional with checkFalsy, trim, isURL.
No sanitizer. -/
def chainBlogImage (v : Option String) : Option String × List FieldError :=
  match v with
  | none => (none, [])
  | some s0 =>
    if s0.isEmpty then (some s0, []) else
    let s := jsTrimStr s0
    (some s, if isURLB s then [] else [⟨"featured_image", "Invalid image URL"⟩])

/-- Chain `body('tags.*')` on one element: optional, trim, isLength max 50,
sanitizer. -/
def chainTagElem (t : String) : String × List FieldError :=
  let s := jsTrimStr t
  (sanitizeStr s,
    if 50 < s.length then
      [⟨"tags", "Each tag must be less than 50 characters"⟩] else [])

/-- Chains `body('tags')` and `body('tags.*')`: an absent field is skipped;
a present list is element-wise trimmed, bounded and sanitized (`isArray`
always holds for the typed payloads modelled here). -/
def chainBlogTags (v : Option (List String)) :
    Option (List String) × List FieldError :=
  match v with
  | none => (none, [])
  | some ts =>
    (some (ts.map (fun t => (chainTagElem t).1)),
      ts.flatMap (fun t => (chainTagElem t).2))

/-- Request body of the blog-post write endpoints. -/
structure BlogPayload where
  title : Option String
  content : Option String
  author : Option String
  excerpt : Option String
  featured_image : Option String
  tags : Option (List String)
  meta_title : Option String
  meta_description : Option String
  is_published : Option Bool
  deriving DecidableEq

/-- Embedding of the `blogPostValidation` middleware list. -/
def blogValidate (p : BlogPayload) : BlogPayload × List FieldError :=
  let ti := chainBlogTitle p.title
  let co := chainBlogContent p.content
  let au := chainBlogAuthor p.author
  let ex := chainOptText "excerpt" 500
    "Excerpt must be less than 500 characters" p.excerpt
  let im := chainBlogImage p.featured_image
  let tg := chainBlogTags p.tags
  let mt := chainOptText "meta_title" 255
    "Meta title must be less than 255 characters" p.meta_title
  let md := chainOptText "meta_description" 500
    "Meta description must be less than 500 characters" p.meta_description
  (⟨ti.1, co.1, au.1, ex.1, im.1, tg.1, mt.1, md.1, p.is_published⟩,
    ti.2 ++ co.2 ++ au.2 ++ ex.2 ++ im.2 ++ tg.2 ++ mt.2 ++ md.2)

/-- Request body of `POST /api/settings`. -/
structure SettingPayload where
  setting_key : Option String
  setting_value : Option String
  setting_type : Option String
  description : Option String
  deriving DecidableEq

/-- Embedding of the `settingsValidation` middleware list: the key is
trimmed, required, bounded and shape-checked; the value is optional and
sanitized when present. -/
def settingsValidate (p : SettingPayload) :
    SettingPayload × List FieldError :=
  let s := jsTrimStr (p.setting_key.getD "")
  let keyErrs :=
    (if s.isEmpty then [⟨"setting_key", "Setting key is required"⟩] else []) ++
    (if 255 < s.length then
      [⟨"setting_key", "Setting key must be less than 255 characters"⟩]
     else []) ++
    (if matchesKeyFormat s then [] else
      [⟨"setting_key",
        "Setting key must be lowercase letters and underscores only"⟩])
  (⟨some s, p.setting_value.map sanitizeStr, p.setting_type, p.description⟩,
    keyErrs)

/-- Request body of `POST /api/auth/login`. -/
structure LoginPayload where
  email : Option String
  password : Option String
  deriving DecidableEq

/-- Embedding of the `loginValidation` middleware list: the email is
trimmed, required, shape-checked and normalised; the password is required
and otherwise untouched. -/
def loginValidate (p : LoginPayload) : LoginPayload × List FieldError :=
  let s := jsTrimStr (p.email.getD "")
  let emailErrs :=
    (if s.isEmpty then [⟨"email", "Email is required"⟩] else []) ++
    (if isEmailB s then [] else [⟨"email", "Invalid email address"⟩])
  let pw := p.password.getD ""
  let pwErrs := if pw.isEmpty then [⟨"password", "Password is required"⟩] else []
  (⟨some (normalizeEmailStr s), p.password⟩, emailErrs ++ pwErrs)

/-- Request body of `POST /api/admin/users`. -/
structure NewUserPayload where
  email : Option String
  password : Option String
  name : Option String
  deriving DecidableEq

/-- Embedding of the inline validation list of `POST /api/admin/users`:
`isEmail().normalizeEmail()`, `isLength({min: 8})` on the password and
`trim().notEmpty()` on the name, with the default message. -/
def newUserValidate (p : NewUserPayload) :
    NewUserPayload × List FieldError :=
  let e := p.email.getD ""
  let emailErrs := if isEmailB e then [] else [⟨"email", "Invalid value"⟩]
  let pw := p.password.getD ""
  let pwErrs := if pw.length < 8 then [⟨"password", "Invalid value"⟩] else []
  let n := jsTrimStr (p.name.getD "")
  let nameErrs := if n.isEmpty then [⟨"name", "Invalid value"⟩] else []
  (⟨some (normalizeEmailStr e), p.password, some n⟩,
    emailErrs ++ pwErrs ++ nameErrs)

/-- Embedding of the `idValidation` chain `param('id').isInt({min: 1})`:
with identifiers modelled as naturals only the lower bound can fail. -/
def idValidationErrs (i : Nat) : List FieldError :=
  if i < 1 then [⟨"id", "Invalid ID"⟩] else []

/-! ## JavaScript truthiness helpers used by the handlers -/

/-- JavaScript `a || b` on an optional string: absent and empty are falsy. -/
def jsOrStr (v : Option String) (d : String) : String :=
  match v with
  | some s => if s.isEmpty then d else s
  | none => d

/-- JavaScript `a || null` on an optional string. -/
def jsOrNull (v : Option String) : Option String :=
  match v with
  | some s => if s.isEmpty then none else some s
  | none => none

/-- JavaScript `a || false` on an optional boolean. -/
def jsOrFalse (v : Option Bool) : Bool :=
  match v with
  | some b => b
  | none => false

/-- JavaScript `a !== false` on an optional boolean (`undefined` counts as
not-`false`, so it yields `true`). -/
def jsNeqFalse (v : Option Bool) : Bool :=
  match v with
  | some false => false
  | _ => true

/-- JavaScript truthiness of an optional boolean. -/
def jsTruthy (v : Option Bool) : Bool :=
  match v with
  | some b => b
  | none => false

/-- JavaScript `content.substring(0, n)`. -/
def jsSubstring (s : String) (n : Nat) : String := ⟨s.data.take n⟩

/-! ## Database mutation helpers -/

/-- Append an entity row to `chiropractors`, advancing the id sequence. -/
def DB.insertChiro (db : DB) (c : Chiropractor) : DB :=
  ⟨db.users, db.chiropractors ++ [c], db.blog_posts, db.site_settings,
   db.audit_log, db.nextId + 1⟩

/-- Append an entity row to `blog_posts`, advancing the id sequence. -/
def DB.insertPost (db : DB) (p : BlogPost) : DB :=
  ⟨db.users, db.chiropractors, db.blog_posts ++ [p], db.site_settings,
   db.audit_log, db.nextId + 1⟩

/-- Append an entity row to `site_settings`, advancing the id sequence. -/
def DB.insertSetting (db : DB) (s : Setting) : DB :=
  ⟨db.users, db.chiropractors, db.blog_posts, db.site_settings ++ [s],
   db.audit_log, db.nextId + 1⟩

/-- Append an entity row to `users`, advancing the id sequence. -/
def DB.insertUser (db : DB) (u : UserAccount) : DB :=
  ⟨db.users ++ [u], db.chiropractors, db.blog_posts, db.site_settings,
   db.audit_log, db.nextId + 1⟩

/-- Replace the `chiropractors` table (an `UPDATE` or `DELETE`). -/
def DB.setChiros (db : DB) (l : List Chiropractor) : DB :=
  ⟨db.users, l, db.blog_posts, db.site_settings, db.audit_log, db.nextId⟩

/-- Replace the `blog_posts` table. -/
def DB.setPosts (db : DB) (l : List BlogPost) : DB :=
  ⟨db.users, db.chiropractors, l, db.site_settings, db.audit_log, db.nextId⟩

/-- Replace the `site_settings` table. -/
def DB.setSettings (db : DB) (l : List Setting) : DB :=
  ⟨db.users, db.chiropractors, db.blog_posts, l, db.audit_log, db.nextId⟩

/-- Replace the `users` table. -/
def DB.setUsers (db : DB) (l : List UserAccount) : DB :=
  ⟨l, db.chiropractors, db.blog_posts, db.site_settings, db.audit_log,
   db.nextId⟩

/-- Append one row to `audit_log`. -/
def DB.appendAudit (db : DB) (e : AuditEntry) : DB :=
  ⟨db.users, db.chiropractors, db.blog_posts, db.site_settings,
   db.audit_log ++ [e], db.nextId⟩

/-! ## Chiropractor write endpoints (`routes/chiropractors.js`,
`routes/admin.js`) -/

/-- Embedding of `POST /api/chiropractors` (after `verifyToken`/`isAdmin`):
validation chains, then `INSERT`, then one `audit_log` insert.  The flag
`aF` models the audit `INSERT` throwing, in which case the catch block
answers 500 while the entity row stays committed, since the source issues
the two statements without a transaction. -/
def createChiropractor (aF : Bool) (actor : Nat) (ip : String) (now : Nat)
    (p0 : ChiroPayload) (db : DB) : Resp × DB :=
  let v := chiroValidate p0
  if !v.2.isEmpty then (.validationFailed v.2, db) else
  let p := v.1
  let row : Chiropractor :=
    ⟨db.nextId, p.name.getD "", p.state.getD "", p.address.getD "",
     p.phone.getD "", p.email.getD "", jsOrNull p.website,
     jsOrNull p.specialty, jsOrNull p.description, jsOrFalse p.is_featured,
     true, now⟩
  let db1 := db.insertChiro row
  if aF then (.err 500 "Failed to create chiropractor", db1) else
  (.ok 201 (.chiro row), db1.appendAudit
    ⟨some actor, "create", some "chiropractor", some row.id, none,
     some (.chiro row), some ip, none⟩)

/-- Update of one chiropractor row as the `UPDATE ... WHERE id` statement
performs it: the listed columns are replaced, `id`, `is_active` and
`created_at` are untouched. -/
def chiroSetCols (p : ChiroPayload) (c : Chiropractor) : Chiropractor :=
  ⟨c.id, p.name.getD "", p.state.getD "", p.address.getD "",
   p.phone.getD "", p.email.getD "", jsOrNull p.website,
   jsOrNull p.specialty, jsOrNull p.description, jsOrFalse p.is_featured,
   c.is_active, c.created_at⟩

/-- Embedding of `PUT /api/chiropractors/:id`: id validation and body
validation chains, `SELECT` of the current row, `UPDATE`, audit insert. -/
def updateChiropractor (aF : Bool) (actor : Nat) (ip : String) (cid : Nat)
    (p0 : ChiroPayload) (db : DB) : Resp × DB :=
  let v := chiroValidate p0
  let errs := idValidationErrs cid ++ v.2
  if !errs.isEmpty then (.validationFailed errs, db) else
  let p := v.1
  match findChiro db cid with
  | none => (.err 404 "Chiropractor not found", db)
  | some current =>
    let row := chiroSetCols p current
    let db1 := db.setChiros (db.chiropractors.map
      (fun c => if c.id == cid then chiroSetCols p c else c))
    if aF then (.err 500 "Failed to update chiropractor", db1) else
    (.ok 200 (.chiro row), db1.appendAudit
      ⟨some actor, "update", some "chiropractor", some cid,
       some (.chiro current), some (.chiro row), some ip, none⟩)

/-- Embedding of `DELETE /api/chiropractors/:id` (soft delete): id
validation, `SELECT` of the current row, `UPDATE ... SET is_active = false`,
audit insert with the prior snapshot only. -/
def deleteChiropractor (aF : Bool) (actor : Nat) (ip : String) (cid : Nat)
    (db : DB) : Resp × DB :=
  let errs := idValidationErrs cid
  if !errs.isEmpty then (.validationFailed errs, db) else
  match findChiro db cid with
  | none => (.err 404 "Chiropractor not found", db)
  | some current =>
    let db1 := db.setChiros (db.chiropractors.map
      (fun c => if c.id == cid then chiroSetActive false c else c))
    if aF then (.err 500 "Failed to delete chiropractor", db1) else
    (.ok 200 .empty, db1.appendAudit
      ⟨some actor, "delete", some "chiropractor", some cid,
       some (.chiro current), none, some ip, none⟩)

/-- Embedding of `POST /api/admin/chiropractors/:id/restore`:
`UPDATE ... SET is_active = true ... RETURNING *`, 404 when no row matched,
audit insert carrying no snapshot at all. -/
def restoreChiropractor (aF : Bool) (actor : Nat) (ip : String) (cid : Nat)
    (db : DB) : Resp × DB :=
  match findChiro db cid with
  | none => (.err 404 "Chiropractor not found", db)
  | some current =>
    let row := chiroSetActive true current
    let db1 := db.setChiros (db.chiropractors.map
      (fun c => if c.id == cid then chiroSetActive true c else c))
    if aF then (.err 500 "Failed to restore chiropractor", db1) else
    (.ok 200 (.chiro row), db1.appendAudit
      ⟨some actor, "restore", some "chiropractor", some cid, none, none,
       some ip, none⟩)

/-- Embedding of `DELETE /api/admin/chiropractors/:id/permanent`: `SELECT`
of the row, row removal, audit insert with the full prior snapshot. -/
def permanentDeleteChiropractor (aF : Bool) (actor : Nat) (ip : String)
    (cid : Nat) (db : DB) : Resp × DB :=
  match findChiro db cid with
  | none => (.err 404 "Chiropractor not found", db)
  | some current =>
    let db1 := db.setChiros (db.chiropractors.filter (fun c => c.id != cid))
    if aF then (.err 500 "Failed to delete chiropractor", db1) else
    (.ok 200 .empty, db1.appendAudit
      ⟨some actor, "permanent_delete", some "chiropractor", some cid,
       some (.chiro current), none, some ip, none⟩)

/-! ## Blog write endpoints (`routes/blog.js`, `routes/admin.js`) -/

/-- Embedding of `POST /api/blog`: validation chains; slug derivation with
one collision check (`SELECT id FROM blog_posts WHERE slug = $1`) and a
base-36 timestamp suffix on collision; `INSERT` (which still throws on a
unique-slug violation, answered as 500 by the catch block); audit insert. -/
def createBlogPost (aF : Bool) (actor : Nat) (ip : String) (now : Nat)
    (p0 : BlogPayload) (db : DB) : Resp × DB :=
  let v := blogValidate p0
  if !v.2.isEmpty then (.validationFailed v.2, db) else
  let p := v.1
  let title := p.title.getD ""
  let content := p.content.getD ""
  let slug0 := createSlug title
  let slug := if db.blog_posts.any (fun q => q.slug == slug0) then
    createSlugSuffixed title (toBase36 now) else slug0
  if db.blog_posts.any (fun q => q.slug == slug) then
    (.err 500 "Failed to create blog post", db) else
  let published := jsNeqFalse p.is_published
  let row : BlogPost :=
    ⟨db.nextId, title, slug, content,
     some (jsOrStr p.excerpt (jsSubstring content 200)), p.author.getD "",
     jsOrNull p.featured_image, p.tags.getD [],
     some (jsOrStr p.meta_title title),
     some (jsOrStr p.meta_description
       (jsOrStr p.excerpt (jsSubstring content 160))),
     published, 0, now, if published then some now else none⟩
  let db1 := db.insertPost row
  if aF then (.err 500 "Failed to create blog post", db1) else
  (.ok 201 (.post row), db1.appendAudit
    ⟨some actor, "create", some "blog_post", some row.id, none,
     some (.post row), some ip, none⟩)

/-- Update of one blog-post row as the `UPDATE ... WHERE id` statement
performs it for a chosen slug and `published_at` value. -/
def postSetCols (p : BlogPayload) (slug : String) (pubAt : Option Nat)
    (q : BlogPost) : BlogPost :=
  let title := p.title.getD ""
  let content := p.content.getD ""
  ⟨q.id, title, slug, content,
   some (jsOrStr p.excerpt (jsSubstring content 200)), p.author.getD "",
   jsOrNull p.featured_image, p.tags.getD [],
   some (jsOrStr p.meta_title title),
   some (jsOrStr p.meta_description
     (jsOrStr p.excerpt (jsSubstring content 160))),
   jsNeqFalse p.is_published, q.views, q.created_at, pubAt⟩

/-- Embedding of `PUT /api/blog/:id`: id and body validation, `SELECT` of
the current row, slug regeneration when the title changed (with one
collision check excluding the row itself), `published_at` bookkeeping,
`UPDATE`, audit insert with both snapshots. -/
def updateBlogPost (aF : Bool) (actor : Nat) (ip : String) (now : Nat)
    (pid : Nat) (p0 : BlogPayload) (db : DB) : Resp × DB :=
  let v := blogValidate p0
  let errs := idValidationErrs pid ++ v.2
  if !errs.isEmpty then (.validationFailed errs, db) else
  let p := v.1
  let title := p.title.getD ""
  match findPost db pid with
  | none => (.err 404 "Blog post not found", db)
  | some current =>
    let slug :=
      if title != current.title then
        let s := createSlug title
        if db.blog_posts.any (fun q => q.slug == s && q.id != pid) then
          createSlugSuffixed title (toBase36 now)
        else s
      else current.slug
    let pubAt :=
      if jsTruthy p.is_published ∧ !current.is_published then some now
      else if !jsTruthy p.is_published then none
      else current.published_at
    let row := postSetCols p slug pubAt current
    let db1 := db.setPosts (db.blog_posts.map
      (fun q => if q.id == pid then postSetCols p slug pubAt q else q))
    if aF then (.err 500 "Failed to update blog post", db1) else
    (.ok 200 (.post row), db1.appendAudit
      ⟨some actor, "update", some "blog_post", some pid,
       some (.post current), some (.post row), some ip, none⟩)

/-- Embedding of `DELETE /api/blog/:id` (hard delete): id validation,
`SELECT` of the row, row removal, audit insert with prior snapshot only. -/
def deleteBlogPost (aF : Bool) (actor : Nat) (ip : String) (pid : Nat)
    (db : DB) : Resp × DB :=
  let errs := idValidationErrs pid
  if !errs.isEmpty then (.validationFailed errs, db) else
  match findPost db pid with
  | none => (.err 404 "Blog post not found", db)
  | some current =>
    let db1 := db.setPosts (db.blog_posts.filter (fun q => q.id != pid))
    if aF then (.err 500 "Failed to delete blog post", db1) else
    (.ok 200 .empty, db1.appendAudit
      ⟨some actor, "delete", some "blog_post", some pid,
       some (.post current), none, some ip, none⟩)

/-- Embedding of `POST /api/admin/blog-posts/:id/toggle-publish`: `SELECT`
of the row, flag flip with `published_at` bookkeeping, `UPDATE`, audit
insert whose snapshots carry only the `is_published` flag. -/
def togglePublishBlogPost (aF : Bool) (actor : Nat) (ip : String)
    (now : Nat) (pid : Nat) (db : DB) : Resp × DB :=
  match findPost db pid with
  | none => (.err 404 "Blog post not found", db)
  | some current =>
    let newStatus := !current.is_published
    let pubAt := if newStatus then
      (match current.published_at with
       | some t => some t
       | none => some now) else none
    let row := postSetPub newStatus pubAt current
    let db1 := db.setPosts (db.blog_posts.map
      (fun q => if q.id == pid then
        postSetPub newStatus pubAt q else q))
    if aF then (.err 500 "Failed to toggle publish status", db1) else
    (.ok 200 (.post row), db1.appendAudit
      ⟨some actor, (if newStatus then "publish" else "unpublish"),
       some "blog_post", some pid, some (.publishFlag current.is_published),
       some (.publishFlag newStatus), some ip, none⟩)

/-! ## Settings write endpoints (`routes/settings.js`) -/

/-- Embedding of `PUT /api/settings/:key`: `SELECT` of the current row,
`UPDATE ... SET setting_value`, audit insert whose snapshots carry only the
`setting_value` field. -/
def updateSetting (aF : Bool) (actor : Nat) (ip : String) (key : String)
    (value : Option String) (db : DB) : Resp × DB :=
  match findSetting db key with
  | none => (.err 404 "Setting not found", db)
  | some current =>
    let db1 := db.setSettings (db.site_settings.map
      (fun s => if s.setting_key == key then
        settingSetValue value s else s))
    if aF then (.err 500 "Failed to update setting", db1) else
    (.ok 200 (.settingKV key value), db1.appendAudit
      ⟨some actor, "update", some "setting", some current.id,
       some (.settingValue current.setting_value), some (.settingValue value),
       some ip, none⟩)

/-- One step of the bulk loop: `UPDATE ... WHERE setting_key = $2
RETURNING setting_key, setting_value`, pushing the returned row when one
matched. -/
def bulkStep (acc : List Setting × List (String × Option String))
    (kv : String × Option String) :
    List Setting × List (String × Option String) :=
  if acc.1.any (fun s => s.setting_key == kv.1) then
    (acc.1.map (fun s => if s.setting_key == kv.1 then
      settingSetValue kv.2 s else s), acc.2 ++ [kv])
  else acc

/-- Embedding of `POST /api/settings/bulk`: a 400 when the body carries no
object, else one `UPDATE` per entry of the object in order, then a single
audit insert for the whole batch (action `bulk_update`, entity type
`settings`, no entity id, no prior snapshot, the raw request object as the
new snapshot). -/
def bulkUpdateSettings (aF : Bool) (actor : Nat) (ip : String)
    (body : Option (List (String × Option String))) (db : DB) : Resp × DB :=
  match body with
  | none => (.err 400 "Invalid settings data", db)
  | some kvs =>
    let r := kvs.foldl bulkStep (db.site_settings, [])
    let db1 := db.setSettings r.1
    if aF then (.err 500 "Failed to update settings", db1) else
    (.ok 200 (.bulkUpdated r.2), db1.appendAudit
      ⟨some actor, "bulk_update", some "settings", none, none,
       some (.settingsBulk kvs), some ip, none⟩)

/-- Embedding of `POST /api/settings`: validation chains, duplicate-key
check, `INSERT`, audit insert with the new row as snapshot. -/
def createSetting (aF : Bool) (actor : Nat) (ip : String)
    (p0 : SettingPayload) (db : DB) : Resp × DB :=
  let v := settingsValidate p0
  if !v.2.isEmpty then (.validationFailed v.2, db) else
  let p := v.1
  let key := p.setting_key.getD ""
  if db.site_settings.any (fun s => s.setting_key == key) then
    (.err 400 "Setting already exists", db) else
  let row : Setting :=
    ⟨db.nextId, key, some (jsOrStr p.setting_value ""),
     jsOrStr p.setting_type "text", jsOrStr p.description ""⟩
  let db1 := db.insertSetting row
  if aF then (.err 500 "Failed to create setting", db1) else
  (.ok 201 (.setting row), db1.appendAudit
    ⟨some actor, "create", some "setting", some row.id, none,
     some (.setting row), some ip, none⟩)

/-- Embedding of `DELETE /api/settings/:key`: core keys are refused, then
`SELECT`, `DELETE`, audit insert with the prior snapshot and — unlike the
other single-row routes — no entity id. -/
def deleteSetting (aF : Bool) (actor : Nat) (ip : String) (key : String)
    (db : DB) : Resp × DB :=
  if ["site_name", "site_description", "contact_email"].contains key then
    (.err 400 "Cannot delete core settings", db) else
  match findSetting db key with
  | none => (.err 404 "Setting not found", db)
  | some current =>
    let db1 := db.setSettings
      (db.site_settings.filter (fun s => s.setting_key != key))
    if aF then (.err 500 "Failed to delete setting", db1) else
    (.ok 200 .empty, db1.appendAudit
      ⟨some actor, "delete", some "setting", none, some (.setting current),
       none, some ip, none⟩)

/-! ## Account write endpoints (`routes/admin.js`) -/

/-- Embedding of `POST /api/admin/users` (after auth): inline validation,
duplicate-email check, `INSERT` with a bcrypt-hashed password (the hash
function is a parameter, the `bcrypt` library being external), audit insert
carrying no snapshots. -/
def createUser (aF : Bool) (hash : String → String) (actor : Nat)
    (ip : String) (now : Nat) (p0 : NewUserPayload) (db : DB) : Resp × DB :=
  let v := newUserValidate p0
  if !v.2.isEmpty then (.validationFailed v.2, db) else
  let p := v.1
  let email := p.email.getD ""
  if db.users.any (fun u => u.email == email) then
    (.err 400 "Email already exists", db) else
  let row : UserAccount :=
    ⟨db.nextId, email, hash (p.password.getD ""), p.name.getD "", "admin",
     true, now⟩
  let db1 := db.insertUser row
  if aF then (.err 500 "Failed to create user", db1) else
  (.ok 201 (.userRow row), db1.appendAudit
    ⟨some actor, "create_user", some "user", some row.id, none, none,
     some ip, none⟩)

/-- Embedding of `POST /api/admin/users/:id/toggle-active`:
self-deactivation refused, `SELECT`, atomic flag flip
(`SET is_active = NOT is_active`), audit insert carrying no snapshots. -/
def toggleUserActive (aF : Bool) (actor : Nat) (ip : String) (uid : Nat)
    (db : DB) : Resp × DB :=
  if uid == actor then (.err 400 "Cannot deactivate your own account", db)
  else
  match findUser db uid with
  | none => (.err 404 "User not found", db)
  | some current =>
    let row := userSetActive (!current.is_active) current
    let db1 := db.setUsers (db.users.map
      (fun u => if u.id == uid then userSetActive (!u.is_active) u
        else u))
    if aF then (.err 500 "Failed to toggle user status", db1) else
    (.ok 200 (.userRow row), db1.appendAudit
      ⟨some actor,
       (if row.is_active then "activate_user" else "deactivate_user"),
       some "user", some uid, none, none, some ip, none⟩)

/-! ## Public and admin read endpoints -/

/-- Rows visible to the public chiropractor queries (`is_active = true`). -/
def activeChiros (db : DB) : List Chiropractor :=
  db.chiropractors.filter (·.is_active)

/-- Case-insensitive substring test, the `ILIKE '%q%'` approximation. -/
def ilikeContains (hay q : String) : Bool :=
  containsSubL (jsLowerStr hay).data (jsLowerStr q).data

/-- Search predicate of `GET /api/chiropractors`: name, specialty or address
matches (a `NULL` specialty never matches). -/
def chiroSearchMatch (q : String) (c : Chiropractor) : Bool :=
  ilikeContains c.name q ||
    (c.specialty.map (fun s => ilikeContains s q)).getD false ||
    ilikeContains c.address q

/-- The `WHERE` clause of `GET /api/chiropractors`: active rows, optionally
filtered by exact state and by the search predicate. -/
def publicChirosFiltered (stateQ searchQ : Option String) (db : DB) :
    List Chiropractor :=
  db.chiropractors.filter (fun c => c.is_active &&
    (match stateQ with
     | none => true
     | some st => c.state == st) &&
    (match searchQ with
     | none => true
     | some q => chiroSearchMatch q c))

/-- Ordering `ORDER BY is_featured DESC, name ASC` as a total boolean
relation. -/
def chiroPubLe (a b : Chiropractor) : Bool :=
  (a.is_featured && !b.is_featured) ||
    (a.is_featured == b.is_featured && decide (a.name ≤ b.name))

/-- Pagination `LIMIT $1 OFFSET $2` with `offset = (page - 1) * limit`. -/
def paginate {α : Type} (page limit : Nat) (l : List α) : List α :=
  (l.drop ((page - 1) * limit)).take limit

/-- Embedding of the row set answered by `GET /api/chiropractors`. -/
def getChiropractorsPub (stateQ searchQ : Option String) (page limit : Nat)
    (db : DB) : List Chiropractor :=
  paginate page limit ((publicChirosFiltered stateQ searchQ db).mergeSort
    chiroPubLe)

/-- Embedding of `GET /api/chiropractors/state/:state`. -/
def chirosByState (st : String) (db : DB) : List Chiropractor :=
  (db.chiropractors.filter (fun c => c.state == st && c.is_active)).mergeSort
    chiroPubLe

/-- Embedding of the aggregate `GET /api/chiropractors/states`: per-state
counts over the active rows. -/
def statesWithCounts (db : DB) : List (String × Nat) :=
  ((activeChiros db).map (·.state)).dedup.map
    (fun st => (st, ((activeChiros db).filter (fun c => c.state == st)).length))

/-- Embedding of `GET /api/chiropractors/:id`: id validation, then a lookup
restricted to active rows, answering the public column projection. -/
def getChiropractorPub (cid : Nat) (db : DB) : Resp :=
  let errs := idValidationErrs cid
  if !errs.isEmpty then .validationFailed errs else
  match db.chiropractors.find? (fun c => c.id == cid && c.is_active) with
  | none => .err 404 "Chiropractor not found"
  | some c => .ok 200 (.chiroView (chiroView c))

/-- Embedding of `GET /api/chiropractors/:id/related`: the pool of active
same-state rows other than the anchor; the route answers a random subset of
this pool (`ORDER BY ... RANDOM() LIMIT`), so any response is a sublist. -/
def relatedChiroPool (bid : Nat) (db : DB) : Option (List Chiropractor) :=
  match db.chiropractors.find? (fun c => c.id == bid && c.is_active) with
  | none => none
  | some c => some (db.chiropractors.filter
      (fun x => x.state == c.state && x.id != bid && x.is_active))

/-- Ordering `ORDER BY created_at DESC` of the admin listing. -/
def adminChiroLe (a b : Chiropractor) : Bool := decide (b.created_at ≤ a.created_at)

/-- Embedding of `GET /api/admin/chiropractors`: all rows, active or not,
sorted by creation time and paginated. -/
def adminGetChiropractors (page limit : Nat) (db : DB) : List Chiropractor :=
  paginate page limit (db.chiropractors.mergeSort adminChiroLe)

/-- Embedding of `GET /api/blog/slug/:slug`: lookup restricted to published
rows; on a hit the view counter of that row is incremented by a second
`UPDATE` statement and the pre-increment row is answered. -/
def getBlogPostBySlug (slug : String) (db : DB) : Resp × DB :=
  match db.blog_posts.find? (fun p => p.slug == slug && p.is_published) with
  | none => (.err 404 "Blog post not found", db)
  | some p =>
    (.ok 200 (.post p), db.setPosts (db.blog_posts.map
      (fun q => if q.id == p.id then bumpViews q else q)))

/-- Embedding of `GET /api/blog/:id`: id validation, then the same lookup
and view-counter increment as the slug route. -/
def getBlogPostById (pid : Nat) (db : DB) : Resp × DB :=
  let errs := idValidationErrs pid
  if !errs.isEmpty then (.validationFailed errs, db) else
  match db.blog_posts.find? (fun p => p.id == pid && p.is_published) with
  | none => (.err 404 "Blog post not found", db)
  | some p =>
    (.ok 200 (.post p), db.setPosts (db.blog_posts.map
      (fun q => if q.id == p.id then bumpViews q else q)))

/-! ## Authentication (`middleware/auth.js`, `routes/auth.js`) -/

/-- Outcome of the external `jsonwebtoken.verify` call, a parameter of the
middleware model: a decoded payload carrying `userId`, or one of the two
error classes the middleware distinguishes (`JsonWebTokenError` for a
malformed or wrongly signed credential, `TokenExpiredError` past expiry). -/
inductive JwtResult where
  | valid (userId : Nat)
  | malformed
  | expired
  deriving DecidableEq

/-- Credential-bearing parts of a request. -/
structure AuthReq where
  authHeader : Option String
  cookieToken : Option String
  deriving DecidableEq

/-- Token extraction of `verifyToken`: a `Bearer` authorization header takes
precedence, otherwise the `token` cookie. -/
def extractToken (r : AuthReq) : Option String :=
  match r.authHeader with
  | some h =>
    if strStartsWith h "Bearer " then some (h.drop 7) else r.cookieToken
  | none => r.cookieToken

/-- Result of the authentication middleware: a 401/500 answer, or `next()`
with `req.user` set. -/
inductive AuthOutcome where
  | denied (status : Nat) (msg : String)
  | authed (u : UserAccount)
  deriving DecidableEq

/-- Embedding of the `verifyToken` middleware: extract the credential,
verify it, resolve the subject against `users`, refuse unknown or
deactivated accounts. -/
def verifyToken (jwtVerify : String → JwtResult) (db : DB) (r : AuthReq) :
    AuthOutcome :=
  match extractToken r with
  | none => .denied 401 "Access denied. No token provided."
  | some t =>
    match jwtVerify t with
    | .malformed => .denied 401 "Invalid token."
    | .expired => .denied 401 "Token expired."
    | .valid uid =>
      match findUser db uid with
      | none => .denied 401 "User not found."
      | some u =>
        if !u.is_active then .denied 401 "Account is deactivated."
        else .authed u

/-- Embedding of `POST /api/auth/login`: validation, case-folded email
lookup, active check, bcrypt comparison (external, passed as a parameter),
then token signing, audit insert and the success payload. -/
def loginRoute (bcryptCompare : String → String → Bool)
    (sign : Nat → String → String → String) (ip ua : String)
    (p0 : LoginPayload) (db : DB) : Resp × DB :=
  let v := loginValidate p0
  if !v.2.isEmpty then (.validationFailed v.2, db) else
  let p := v.1
  match findUserByEmail db (jsLowerStr (p.email.getD "")) with
  | none => (.err 401 "Invalid email or password", db)
  | some u =>
    if !u.is_active then (.err 401 "Account is deactivated", db) else
    if !bcryptCompare (p.password.getD "") u.password then
      (.err 401 "Invalid email or password", db) else
    (.ok 200 (.loginUser u.id u.email u.name u.role (sign u.id u.email u.role)),
      db.appendAudit
        ⟨some u.id, "login", none, none, none, none, some ip, some ua⟩)

/-! ## The admin write surface as one operation type -/

/-- One modelled admin write request, dispatched to its route handler after
authentication and authorisation. -/
inductive AdminOp where
  | chiroCreate (now : Nat) (p : ChiroPayload)
  | chiroUpdate (cid : Nat) (p : ChiroPayload)
  | chiroDelete (cid : Nat)
  | chiroRestore (cid : Nat)
  | chiroPermanentDelete (cid : Nat)
  | blogCreate (now : Nat) (p : BlogPayload)
  | blogUpdate (now : Nat) (pid : Nat) (p : BlogPayload)
  | blogDelete (pid : Nat)
  | blogTogglePublish (now : Nat) (pid : Nat)
  | settingUpdate (key : String) (value : Option String)
  | settingsBulk (body : Option (List (String × Option String)))
  | settingCreate (p : SettingPayload)
  | settingDelete (key : String)
  | userCreate (hash : String → String) (now : Nat) (p : NewUserPayload)
  | userToggle (uid : Nat)

/-- Dispatch of a modelled admin write to its handler. -/
def runOp (aF : Bool) (actor : Nat) (ip : String) (op : AdminOp) (db : DB) :
    Resp × DB :=
  match op with
  | .chiroCreate now p => createChiropractor aF actor ip now p db
  | .chiroUpdate cid p => updateChiropractor aF actor ip cid p db
  | .chiroDelete cid => deleteChiropractor aF actor ip cid db
  | .chiroRestore cid => restoreChiropractor aF actor ip cid db
  | .chiroPermanentDelete cid => permanentDeleteChiropractor aF actor ip cid db
  | .blogCreate now p => createBlogPost aF actor ip now p db
  | .blogUpdate now pid p => updateBlogPost aF actor ip now pid p db
  | .blogDelete pid => deleteBlogPost aF actor ip pid db
  | .blogTogglePublish now pid => togglePublishBlogPost aF actor ip now pid db
  | .settingUpdate key value => updateSetting aF actor ip key value db
  | .settingsBulk body => bulkUpdateSettings aF actor ip body db
  | .settingCreate p => createSetting aF actor ip p db
  | .settingDelete key => deleteSetting aF actor ip key db
  | .userCreate hash now p => createUser aF hash actor ip now p db
  | .userToggle uid => toggleUserActive aF actor ip uid db

/-- Success of a modelled response: a 2xx status. -/
def Resp.isSuccess : Resp → Bool
  | .ok s _ => s == 200 || s == 201
  | _ => false

/-- Validation errors collected by the middleware chains of each route
before its handler body runs. -/
def opValidationErrs (op : AdminOp) : List FieldError :=
  match op with
  | .chiroCreate _ p => (chiroValidate p).2
  | .chiroUpdate cid p => idValidationErrs cid ++ (chiroValidate p).2
  | .chiroDelete cid => idValidationErrs cid
  | .chiroRestore _ => []
  | .chiroPermanentDelete _ => []
  | .blogCreate _ p => (blogValidate p).2
  | .blogUpdate _ pid p => idValidationErrs pid ++ (blogValidate p).2
  | .blogDelete pid => idValidationErrs pid
  | .blogTogglePublish _ _ => []
  | .settingUpdate _ _ => []
  | .settingsBulk _ => []
  | .settingCreate p => (settingsValidate p).2
  | .settingDelete _ => []
  | .userCreate _ _ p => (newUserValidate p).2
  | .userToggle _ => []

/-- Audit contract of one successful admin write, as the code actually
behaves: relative to the pre-state `db` and post-state `db'`, the appended
entry `e` names the acting account and request origin, and per operation it
carries the entity type, entity id and snapshots listed here.  Updates
snapshot the pre- and post-state row; creates snapshot the new row only
(user creation snapshots nothing); soft deletes, hard deletes and setting
deletes snapshot the prior row only; the restore and the account toggle
snapshot nothing; the publish toggle snapshots only the flag; the bulk
settings update produces one entry for the whole batch, with no entity id
and the raw request object as its new snapshot; the setting delete carries
no entity id. -/
def auditContract (actor : Nat) (ip : String) (op : AdminOp) (db db' : DB)
    (e : AuditEntry) : Prop :=
  e.user_id = some actor ∧ e.ip_address = some ip ∧
  match op with
  | .chiroCreate _ _ =>
      e.action = "create" ∧ e.entity_type = some "chiropractor" ∧
      e.entity_id = some db.nextId ∧ e.old_values = none ∧
      ∃ c, findChiro db' db.nextId = some c ∧ e.new_values = some (.chiro c)
  | .chiroUpdate cid _ =>
      e.action = "update" ∧ e.entity_type = some "chiropractor" ∧
      e.entity_id = some cid ∧
      (∃ c, findChiro db cid = some c ∧ e.old_values = some (.chiro c)) ∧
      (∃ c, findChiro db' cid = some c ∧ e.new_values = some (.chiro c))
  | .chiroDelete cid =>
      e.action = "delete" ∧ e.entity_type = some "chiropractor" ∧
      e.entity_id = some cid ∧
      (∃ c, findChiro db cid = some c ∧ e.old_values = some (.chiro c)) ∧
      e.new_values = none
  | .chiroRestore cid =>
      e.action = "restore" ∧ e.entity_type = some "chiropractor" ∧
      e.entity_id = some cid ∧ e.old_values = none ∧ e.new_values = none
  | .chiroPermanentDelete cid =>
      e.action = "permanent_delete" ∧ e.entity_type = some "chiropractor" ∧
      e.entity_id = some cid ∧
      (∃ c, findChiro db cid = some c ∧ e.old_values = some (.chiro c)) ∧
      e.new_values = none
  | .blogCreate _ _ =>
      e.action = "create" ∧ e.entity_type = some "blog_post" ∧
      e.entity_id = some db.nextId ∧ e.old_values = none ∧
      ∃ q, findPost db' db.nextId = some q ∧ e.new_values = some (.post q)
  | .blogUpdate _ pid _ =>
      e.action = "update" ∧ e.entity_type = some "blog_post" ∧
      e.entity_id = some pid ∧
      (∃ q, findPost db pid = some q ∧ e.old_values = some (.post q)) ∧
      (∃ q, findPost db' pid = some q ∧ e.new_values = some (.post q))
  | .blogDelete pid =>
      e.action = "delete" ∧ e.entity_type = some "blog_post" ∧
      e.entity_id = some pid ∧
      (∃ q, findPost db pid = some q ∧ e.old_values = some (.post q)) ∧
      e.new_values = none
  | .blogTogglePublish _ pid =>
      (e.action = "publish" ∨ e.action = "unpublish") ∧
      e.entity_type = some "blog_post" ∧ e.entity_id = some pid ∧
      (∃ q, findPost db pid = some q ∧
        e.old_values = some (.publishFlag q.is_published)) ∧
      (∃ q, findPost db' pid = some q ∧
        e.new_values = some (.publishFlag q.is_published))
  | .settingUpdate key _ =>
      e.action = "update" ∧ e.entity_type = some "setting" ∧
      (∃ s, findSetting db key = some s ∧ e.entity_id = some s.id ∧
        e.old_values = some (.settingValue s.setting_value)) ∧
      (∃ s, findSetting db' key = some s ∧
        e.new_values = some (.settingValue s.setting_value))
  | .settingsBulk body =>
      e.action = "bulk_update" ∧ e.entity_type = some "settings" ∧
      e.entity_id = none ∧ e.old_values = none ∧
      ∃ kvs, body = some kvs ∧ e.new_values = some (.settingsBulk kvs)
  | .settingCreate _ =>
      e.action = "create" ∧ e.entity_type = some "setting" ∧
      e.entity_id = some db.nextId ∧ e.old_values = none ∧
      ∃ s, s ∈ db'.site_settings ∧ s.id = db.nextId ∧
        e.new_values = some (.setting s)
  | .settingDelete key =>
      e.action = "delete" ∧ e.entity_type = some "setting" ∧
      e.entity_id = none ∧
      (∃ s, findSetting db key = some s ∧ e.old_values = some (.setting s)) ∧
      e.new_values = none
  | .userCreate _ _ _ =>
      e.action = "create_user" ∧ e.entity_type = some "user" ∧
      e.entity_id = some db.nextId ∧ e.old_values = none ∧ e.new_values = none
  | .userToggle uid =>
      (e.action = "activate_user" ∨ e.action = "deactivate_user") ∧
      e.entity_type = some "user" ∧ e.entity_id = some uid ∧
      e.old_values = none ∧ e.new_values = none

/-- The concrete chiropractor payload of the C3 counterexample: a markup
name that sanitizes to an escaped form, and an invalid phone. -/
def cexPayload : ChiroPayload :=
  ⟨some "  <b>x</b>  ", some "CA", some "1 Main St.", some "abc",
   some "a@b.com", none, none, none, none⟩

/-- The concrete, fully valid chiropractor payload used by the C2 failing
run and several witnesses. -/
def validChiroPayload : ChiroPayload :=
  ⟨some "Dr. Bob Smith", some "California", some "1 Main St.",
   some "(555) 123-4567", some "bob@chiro.com", none, none, none, none⟩

/-- Concrete verifier for the C5 witness. -/
def jvW : String → JwtResult :=
  fun t => if t = "e" then .expired else if t = "m" then .malformed
    else .valid 1

/-- Concrete store for the C5 witness: account 1 exists and is
deactivated. -/
def dbW : DB := ⟨[⟨1, "a@b.com", "h", "A", "admin", false, 0⟩], [], [], [], [], 2⟩

/-- Concrete store for the C10 witness: one active account. -/
def dbLoginW : DB :=
  ⟨[⟨1, "a@b.com", "hash", "A", "admin", true, 0⟩], [], [], [], [], 2⟩

/-- Concrete store for the C9 witness: one published post. -/
def dbPostW : DB :=
  ⟨[], [], [⟨1, "t", "t-slug", "c", none, "a", none, [], none, none, true,
    5, 0, some 0⟩], [], [], 2⟩

/-- Concrete payload for the C6 witness. -/
def blogPayloadW : BlogPayload :=
  ⟨some "Hello World Post",
   some "This content is definitely long enough to pass the fifty character minimum check.",
   some "Alice", none, none, none, none, none, none⟩

/-- Concrete store for the C6 witness: the base slug is already taken. -/
def dbBlogW : DB :=
  ⟨[], [], [⟨1, "Hello World Post", "hello-world-post", "c", none, "a",
    none, [], none, none, true, 0, 0, none⟩], [], [], 2⟩

/-- Concrete store for the C7 witness: two active chiropractors in the same
state. -/
def dbC7W : DB :=
  ⟨[], [⟨1, "A", "CA", "addr", "5", "a@b.c", none, none, none, false, true, 0⟩,
    ⟨2, "B", "CA", "addr2", "5", "b@b.c", none, none, none, false, true, 0⟩],
   [], [], [], 3⟩

/-- Concrete store for the C1 counterexample: one active chiropractor. -/
def dbC1W : DB :=
  ⟨[], [⟨1, "A", "CA", "addr", "5", "a@b.c", none, none, none, false, true,
    0⟩], [], [], [], 2⟩

/-! ## Generic lemmas about `dropWhile` and `dropEnds` -/

theorem dropWhile_head_not {α : Type} {p : α → Bool} :
    ∀ (l : List α) {c : α} {cs : List α}, l.dropWhile p = c :: cs → p c = false
  | [], _, _, h => by simp at h
  | a :: l, c, cs, h => by
    rw [List.dropWhile_cons] at h
    by_cases ha : p a = true
    · rw [if_pos ha] at h
      exact dropWhile_head_not l h
    · rw [if_neg ha] at h
      cases h
      simpa using ha

theorem mem_dropWhile_of_not {α : Type} {p : α → Bool} {x : α} (hx : p x = false) :
    ∀ (l : List α), x ∈ l → x ∈ l.dropWhile p
  | [], h => absurd h (List.not_mem_nil x)
  | a :: l, h => by
    rw [List.dropWhile_cons]
    by_cases ha : p a = true
    · rw [if_pos ha]
      rcases List.mem_cons.mp h with h' | h'
      · subst h'
        rw [hx] at ha
        cases ha
      · exact mem_dropWhile_of_not hx l h'
    · rw [if_neg ha]
      exact h

theorem dropEnds_prefix_dropWhile {α : Type} (p : α → Bool) (l : List α) :
    dropEnds p l <+: l.dropWhile p := by
  unfold dropEnds
  have h1 : ((l.dropWhile p).reverse.dropWhile p) <:+ (l.dropWhile p).reverse :=
    List.dropWhile_suffix p
  have h2 : ((l.dropWhile p).reverse.dropWhile p).reverse <+:
      (l.dropWhile p).reverse.reverse :=
    List.reverse_prefix.mpr h1
  rwa [List.reverse_reverse] at h2

theorem dropEnds_sublist {α : Type} (p : α → Bool) (l : List α) :
    (dropEnds p l).Sublist l :=
  ((dropEnds_prefix_dropWhile p l).sublist).trans (List.dropWhile_sublist p)

theorem dropEnds_head_not {α : Type} {p : α → Bool} {l : List α} {c : α} {cs : List α}
    (h : dropEnds p l = c :: cs) : p c = false := by
  rcases dropEnds_prefix_dropWhile p l with ⟨t, ht⟩
  rw [h] at ht
  exact dropWhile_head_not l ht.symm

theorem dropEnds_getLast_not {α : Type} {p : α → Bool} {l : List α} {c : α}
    (h : (dropEnds p l).getLast? = some c) : p c = false := by
  unfold dropEnds at h
  rw [List.getLast?_eq_head?_reverse, List.reverse_reverse] at h
  cases hd : (l.dropWhile p).reverse.dropWhile p with
  | nil => rw [hd] at h; simp at h
  | cons d ds =>
    rw [hd] at h
    simp only [List.head?_cons, Option.some_inj] at h
    subst h
    exact dropWhile_head_not _ hd

theorem mem_dropEnds_of_not {α : Type} {p : α → Bool} {x : α} (hx : p x = false)
    {l : List α} (h : x ∈ l) : x ∈ dropEnds p l := by
  unfold dropEnds
  rw [List.mem_reverse]
  exact mem_dropWhile_of_not hx _ (List.mem_reverse.mpr (mem_dropWhile_of_not hx l h))

theorem dropEnds_eq_nil_iff {α : Type} {p : α → Bool} {l : List α} :
    dropEnds p l = [] ↔ ∀ x ∈ l, p x = true := by
  constructor
  · intro h x hx
    by_cases hpx : p x = true
    · exact hpx
    · have : x ∈ dropEnds p l := mem_dropEnds_of_not (by simpa using hpx) hx
      rw [h] at this
      exact absurd this (List.not_mem_nil x)
  · intro h
    have h1 : l.dropWhile p = [] := List.dropWhile_eq_nil_iff.mpr h
    unfold dropEnds
    rw [h1]
    rfl

theorem dropEnds_eq_self {α : Type} {p : α → Bool} {l : List α}
    (hh : ∀ c, l.head? = some c → p c = false)
    (hl : ∀ c, l.getLast? = some c → p c = false) : dropEnds p l = l := by
  have h1 : l.dropWhile p = l := by
    cases l with
    | nil => rfl
    | cons a t =>
      rw [List.dropWhile_cons, if_neg]
      simp [hh a rfl]
  unfold dropEnds
  rw [h1]
  have h2 : l.reverse.dropWhile p = l.reverse := by
    cases hr : l.reverse with
    | nil => rfl
    | cons a t =>
      have hla : l.getLast? = some a := by
        rw [List.getLast?_eq_head?_reverse, hr]
        rfl
      rw [List.dropWhile_cons, if_neg (by simp [hl a hla])]
  rw [h2, List.reverse_reverse]

/-! ## Structure of the collapsed character list -/

theorem isSlugChar_asciiLower (c : Char) :
    isSlugChar (asciiLower c) = isAsciiAlphanum c := by
  unfold asciiLower isSlugChar isAsciiAlphanum
  by_cases h : 65 ≤ c.toNat ∧ c.toNat ≤ 90
  · rw [if_pos h]
    have hv : (Char.ofNat (c.toNat + 32)).toNat = c.toNat + 32 := by
      unfold Char.ofNat
      rw [dif_pos (Or.inl (by omega))]
      rfl
    rw [hv, decide_eq_decide]
    omega
  · rw [if_neg h, decide_eq_decide]
    omega

theorem hyphen_not_slugChar : isSlugChar '-' = false := by decide

theorem mem_collapseRunsAux {x : Char} :
    ∀ (l : List Char) (b : Bool), x ∈ collapseRunsAux l b →
      isSlugChar x = true ∨ x = '-'
  | [], _, h => by simp [collapseRunsAux] at h
  | c :: cs, b, h => by
    unfold collapseRunsAux at h
    by_cases hc : isSlugChar c = true
    · rw [if_pos hc] at h
      rcases List.mem_cons.mp h with h' | h'
      · exact Or.inl (h' ▸ hc)
      · exact mem_collapseRunsAux cs false h'
    · rw [if_neg hc] at h
      by_cases hb : b = true
      · rw [if_pos hb] at h
        exact mem_collapseRunsAux cs true h
      · rw [if_neg hb] at h
        rcases List.mem_cons.mp h with h' | h'
        · exact Or.inr h'
        · exact mem_collapseRunsAux cs true h'

theorem mem_of_mem_collapseRunsAux_slug {x : Char} (hx : isSlugChar x = true) :
    ∀ (l : List Char) (b : Bool), x ∈ collapseRunsAux l b → x ∈ l
  | [], _, h => by simp [collapseRunsAux] at h
  | c :: cs, b, h => by
    unfold collapseRunsAux at h
    by_cases hc : isSlugChar c = true
    · rw [if_pos hc] at h
      rcases List.mem_cons.mp h with h' | h'
      · exact h' ▸ List.mem_cons_self c cs
      · exact List.mem_cons_of_mem c (mem_of_mem_collapseRunsAux_slug hx cs false h')
    · rw [if_neg hc] at h
      by_cases hb : b = true
      · rw [if_pos hb] at h
        exact List.mem_cons_of_mem c (mem_of_mem_collapseRunsAux_slug hx cs true h)
      · rw [if_neg hb] at h
        rcases List.mem_cons.mp h with h' | h'
        · subst h'
          rw [hyphen_not_slugChar] at hx
          cases hx
        · exact List.mem_cons_of_mem c (mem_of_mem_collapseRunsAux_slug hx cs true h')

theorem mem_collapseRunsAux_of_slug {x : Char} (hx : isSlugChar x = true) :
    ∀ (l : List Char) (b : Bool), x ∈ l → x ∈ collapseRunsAux l b
  | [], _, h => absurd h (List.not_mem_nil x)
  | c :: cs, b, h => by
    unfold collapseRunsAux
    by_cases hc : isSlugChar c = true
    · rw [if_pos hc]
      rcases List.mem_cons.mp h with h' | h'
      · exact h' ▸ List.mem_cons_self c _
      · exact List.mem_cons_of_mem c (mem_collapseRunsAux_of_slug hx cs false h')
    · rw [if_neg hc]
      have h' : x ∈ cs := by
        rcases List.mem_cons.mp h with h'' | h''
        · subst h''
          rw [hx] at hc
          exact absurd rfl hc
        · exact h''
      by_cases hb : b = true
      · rw [if_pos hb]
        exact mem_collapseRunsAux_of_slug hx cs true h'
      · rw [if_neg hb]
        exact List.mem_cons_of_mem _ (mem_collapseRunsAux_of_slug hx cs true h')

theorem collapseRunsAux_true_head :
    ∀ (l : List Char) (c : Char) (cs : List Char),
      collapseRunsAux l true = c :: cs → isSlugChar c = true
  | [], c, cs, h => by simp [collapseRunsAux] at h
  | a :: l, c, cs, h => by
    unfold collapseRunsAux at h
    by_cases ha : isSlugChar a = true
    · rw [if_pos ha] at h
      cases h
      exact ha
    · rw [if_neg ha, if_pos rfl] at h
      exact collapseRunsAux_true_head l c cs h

theorem noAdjacentHyphens_cons {a : Char} {m : List Char}
    (h : noAdjacentHyphens (a :: m) = true) : noAdjacentHyphens m = true := by
  cases m with
  | nil => rfl
  | cons b bs =>
    unfold noAdjacentHyphens at h
    simp only [Bool.and_eq_true] at h
    exact h.2

theorem noAdjacentHyphens_cons_of (a : Char) (m : List Char)
    (h : a = '-' → m.head? ≠ some '-') (hm : noAdjacentHyphens m = true) :
    noAdjacentHyphens (a :: m) = true := by
  cases m with
  | nil => rfl
  | cons b bs =>
    unfold noAdjacentHyphens
    rw [hm, Bool.and_true]
    by_cases ha : a = '-'
    · have hb : b ≠ '-' := by
        intro hb
        exact h ha (by rw [hb]; rfl)
      simp [ha, hb]
    · simp [ha]

theorem noAdjacentHyphens_append_left :
    ∀ (l t : List Char), noAdjacentHyphens (l ++ t) = true →
      noAdjacentHyphens l = true
  | [], _, _ => rfl
  | [_], _, _ => rfl
  | a :: b :: l, t, h => by
    rw [List.cons_append, List.cons_append] at h
    unfold noAdjacentHyphens at h ⊢
    simp only [Bool.and_eq_true] at h
    rw [h.1, Bool.true_and]
    have h2 := h.2
    rw [← List.cons_append] at h2
    exact noAdjacentHyphens_append_left (b :: l) t h2

theorem noAdjacentHyphens_append_right :
    ∀ (t l : List Char), noAdjacentHyphens (t ++ l) = true →
      noAdjacentHyphens l = true
  | [], _, h => h
  | _ :: t, l, h => noAdjacentHyphens_append_right t l (noAdjacentHyphens_cons h)

theorem noAdjacentHyphens_collapseRunsAux :
    ∀ (l : List Char) (b : Bool), noAdjacentHyphens (collapseRunsAux l b) = true
  | [], _ => rfl
  | c :: cs, b => by
    unfold collapseRunsAux
    by_cases hc : isSlugChar c = true
    · rw [if_pos hc]
      apply noAdjacentHyphens_cons_of
      · intro hc'
        rw [hc'] at hc
        rw [hyphen_not_slugChar] at hc
        cases hc
      · exact noAdjacentHyphens_collapseRunsAux cs false
    · rw [if_neg hc]
      by_cases hb : b = true
      · rw [if_pos hb]
        exact noAdjacentHyphens_collapseRunsAux cs true
      · rw [if_neg hb]
        apply noAdjacentHyphens_cons_of
        · intro _ hhd
          cases hd : collapseRunsAux cs true with
          | nil => rw [hd] at hhd; simp at hhd
          | cons d ds =>
            rw [hd] at hhd
            simp only [List.head?_cons, Option.some_inj] at hhd
            have := collapseRunsAux_true_head cs d ds hd
            rw [hhd, hyphen_not_slugChar] at this
            cases this
        · exact noAdjacentHyphens_collapseRunsAux cs true

/-! ## The slug output matches the advertised regular expression -/

theorem slugShapeAfter_of :
    ∀ (l : List Char), (∀ c ∈ l, isSlugChar c = true ∨ c = '-') →
      noAdjacentHyphens l = true → l.getLast? ≠ some '-' →
      slugShapeAfter l = true
  | [], _, _, _ => rfl
  | [c], h1, _, h3 => by
    have hc : isSlugChar c = true := by
      rcases h1 c (List.mem_cons_self c []) with h | h
      · exact h
      · subst h
        exact absurd rfl h3
    unfold slugShapeAfter
    rw [if_pos hc]
    rfl
  | c :: d :: rest, h1, h2, h3 => by
    have h3' : (d :: rest).getLast? ≠ some '-' := by
      rw [List.getLast?_cons_cons] at h3
      exact h3
    have hd2 : noAdjacentHyphens (d :: rest) = true := noAdjacentHyphens_cons h2
    rcases h1 c (List.mem_cons_self c _) with hc | hc
    · unfold slugShapeAfter
      rw [if_pos hc]
      exact slugShapeAfter_of (d :: rest)
        (fun x hx => h1 x (List.mem_cons_of_mem _ hx)) hd2 h3'
    · subst hc
      have hd : d ≠ '-' := by
        intro hd
        subst hd
        unfold noAdjacentHyphens at h2
        simp at h2
      have hdslug : isSlugChar d = true := by
        rcases h1 d (List.mem_cons_of_mem _ (List.mem_cons_self d _)) with h | h
        · exact h
        · exact absurd h hd
      have hrest : slugShapeAfter rest = true := by
        apply slugShapeAfter_of rest
        · exact fun x hx =>
            h1 x (List.mem_cons_of_mem _ (List.mem_cons_of_mem _ hx))
        · exact noAdjacentHyphens_cons hd2
        · cases rest with
          | nil => simp
          | cons e es =>
            rw [List.getLast?_cons_cons] at h3'
            exact h3'
      unfold slugShapeAfter
      rw [if_neg (by rw [hyphen_not_slugChar]; exact Bool.false_ne_true), if_pos rfl]
      show (isSlugChar d && slugShapeAfter rest) = true
      rw [hdslug, hrest]
      rfl

theorem slugRegexMatches_of (l : List Char) (hne : l ≠ [])
    (h1 : ∀ c ∈ l, isSlugChar c = true ∨ c = '-')
    (hh : l.head? ≠ some '-') (h2 : noAdjacentHyphens l = true)
    (h3 : l.getLast? ≠ some '-') : slugRegexMatches l = true := by
  cases l with
  | nil => exact absurd rfl hne
  | cons c cs =>
    have hc : isSlugChar c = true := by
      rcases h1 c (List.mem_cons_self c cs) with h | h
      · exact h
      · subst h
        exact absurd rfl hh
    unfold slugRegexMatches
    show (isSlugChar c && slugShapeAfter cs) = true
    rw [hc, Bool.true_and]
    apply slugShapeAfter_of cs
    · exact fun x hx => h1 x (List.mem_cons_of_mem _ hx)
    · exact noAdjacentHyphens_cons h2
    · cases cs with
      | nil => simp
      | cons e es =>
        rw [List.getLast?_cons_cons] at h3
        exact h3

theorem createSlugL_shape (l : List Char) :
    createSlugL l = [] ∨ slugRegexMatches (createSlugL l) = true := by
  unfold createSlugL stripHyphensL
  cases hres : dropEnds (· == '-') (collapseRunsAux (l.map asciiLower) false) with
  | nil => exact Or.inl rfl
  | cons c cs =>
    apply Or.inr
    set r := collapseRunsAux (l.map asciiLower) false with hr
    apply slugRegexMatches_of
    · simp
    · intro x hx
      have hx0 : x ∈ dropEnds (· == '-') r := by
        rw [hres]
        exact hx
      have hx' : x ∈ r := List.Sublist.mem hx0 (dropEnds_sublist _ r)
      exact mem_collapseRunsAux (l.map asciiLower) false hx'
    · rw [List.head?_cons]
      intro h
      have hc := dropEnds_head_not hres
      simp only [Option.some_inj] at h
      rw [h] at hc
      simp at hc
    · have hAll : noAdjacentHyphens r = true :=
        noAdjacentHyphens_collapseRunsAux (l.map asciiLower) false
      rcases dropEnds_prefix_dropWhile (· == '-') r with ⟨t, ht⟩
      have h1 : noAdjacentHyphens (r.dropWhile (· == '-')) = true := by
        have hsfx : (r.dropWhile (· == '-')) <:+ r := List.dropWhile_suffix _
        rcases hsfx with ⟨u, hu⟩
        rw [← hu] at hAll
        exact noAdjacentHyphens_append_right u _ hAll
      rw [← ht] at h1
      rw [← hres]
      exact noAdjacentHyphens_append_left _ t h1
    · intro h
      have := dropEnds_getLast_not (hres ▸ h)
      simp at this

theorem createSlugL_eq_nil_iff (l : List Char) :
    createSlugL l = [] ↔ ∀ c ∈ l, isAsciiAlphanum c = false := by
  unfold createSlugL stripHyphensL
  rw [dropEnds_eq_nil_iff]
  constructor
  · intro h c hc
    by_cases ha : isAsciiAlphanum c = true
    · have hslug : isSlugChar (asciiLower c) = true := by
        rw [isSlugChar_asciiLower]
        exact ha
      have hmem : asciiLower c ∈ collapseRunsAux (l.map asciiLower) false :=
        mem_collapseRunsAux_of_slug hslug _ false (List.mem_map_of_mem asciiLower hc)
      have := h _ hmem
      simp only [beq_iff_eq] at this
      rw [this, hyphen_not_slugChar] at hslug
      cases hslug
    · simpa using ha
  · intro h x hx
    rcases mem_collapseRunsAux _ _ hx with hslug | hhyp
    · have hx' : x ∈ l.map asciiLower :=
        mem_of_mem_collapseRunsAux_slug hslug _ false hx
      rcases List.mem_map.mp hx' with ⟨c, hc, hac⟩
      rw [← hac, isSlugChar_asciiLower] at hslug
      rw [h c hc] at hslug
      cases hslug
    · simp [hhyp]

/-- C4: `createSlug` lower-cases its input, replaces each maximal run of
characters outside `[a-z0-9]` with a single hyphen and strips outer hyphens;
its output matches `^[a-z0-9]+(-[a-z0-9]+)*$` or is empty, it is empty
exactly when the input contains no (ASCII) alphanumeric character, and the
title "5 Benefits of Regular Chiropractic Care" yields
"5-benefits-of-regular-chiropractic-care". -/
theorem C4_slugify_correct (s : String) :
    (createSlug s = "" ∨ slugRegexMatches (createSlug s).data = true)
  ∧ (createSlug s = "" ↔ ∀ c ∈ s.data, isAsciiAlphanum c = false)
  ∧ createSlug "5 Benefits of Regular Chiropractic Care"
      = "5-benefits-of-regular-chiropractic-care" := by
  refine ⟨?_, ?_, by decide⟩
  · rcases createSlugL_shape s.data with h | h
    · left
      rw [String.ext_iff]
      exact h
    · right
      exact h
  · rw [String.ext_iff]
    exact createSlugL_eq_nil_iff s.data

/-! ## Idempotence of the sanitizer -/

theorem dropEnds_idem {α : Type} (p : α → Bool) (l : List α) :
    dropEnds p (dropEnds p l) = dropEnds p l := by
  apply dropEnds_eq_self
  · intro c hc
    cases hd : dropEnds p l with
    | nil =>
      rw [hd] at hc
      simp at hc
    | cons a t =>
      rw [hd] at hc
      simp only [List.head?_cons, Option.some_inj] at hc
      subst hc
      exact dropEnds_head_not hd
  · intro c hc
    exact dropEnds_getLast_not hc

theorem mem_escChar_ne {c x : Char} (h : x ∈ escChar c) : x ≠ '<' ∧ x ≠ '>' := by
  unfold escChar at h
  by_cases h1 : c = '<'
  · rw [if_pos h1] at h
    fin_cases h <;> simp
  · rw [if_neg h1] at h
    by_cases h2 : c = '>'
    · rw [if_pos h2] at h
      fin_cases h <;> simp
    · rw [if_neg h2] at h
      rcases List.mem_singleton.mp h with rfl
      exact ⟨h1, h2⟩

theorem escChar_eq_self {c : Char} (h1 : c ≠ '<') (h2 : c ≠ '>') :
    escChar c = [c] := by
  unfold escChar
  rw [if_neg h1, if_neg h2]

theorem xssEscapeL_id_of :
    ∀ (m : List Char), (∀ x ∈ m, x ≠ '<' ∧ x ≠ '>') → xssEscapeL m = m
  | [], _ => rfl
  | a :: m, h => by
    unfold xssEscapeL
    rw [List.flatMap_cons]
    have ha := h a (List.mem_cons_self a m)
    rw [escChar_eq_self ha.1 ha.2]
    have := xssEscapeL_id_of m (fun x hx => h x (List.mem_cons_of_mem a hx))
    unfold xssEscapeL at this
    rw [this]
    rfl

theorem xssEscapeL_idem (l : List Char) :
    xssEscapeL (xssEscapeL l) = xssEscapeL l := by
  apply xssEscapeL_id_of
  intro x hx
  rcases List.mem_flatMap.mp hx with ⟨c, _, hc⟩
  exact mem_escChar_ne hc

theorem xssEscapeL_head_not_ws {c : Char} (hc : isJsWs c = false) (t : List Char) :
    ∀ d, (xssEscapeL (c :: t)).head? = some d → isJsWs d = false := by
  intro d hd
  unfold xssEscapeL at hd
  rw [List.flatMap_cons] at hd
  unfold escChar at hd
  by_cases h1 : c = '<'
  · rw [if_pos h1] at hd
    simp only [List.cons_append, List.head?_cons, Option.some_inj] at hd
    subst hd
    decide
  · rw [if_neg h1] at hd
    by_cases h2 : c = '>'
    · rw [if_pos h2] at hd
      simp only [List.cons_append, List.head?_cons, Option.some_inj] at hd
      subst hd
      decide
    · rw [if_neg h2] at hd
      simp only [List.cons_append, List.head?_cons, Option.some_inj] at hd
      subst hd
      exact hc

theorem xssEscapeL_getLast_not_ws {c : Char} (hc : isJsWs c = false)
    (L : List Char) :
    ∀ d, (xssEscapeL (L ++ [c])).getLast? = some d → isJsWs d = false := by
  intro d hd
  unfold xssEscapeL at hd
  rw [List.flatMap_append] at hd
  have hne : (List.flatMap [c] escChar) = escChar c := by
    simp [List.flatMap_cons]
  rw [hne, List.getLast?_append] at hd
  unfold escChar at hd
  by_cases h1 : c = '<'
  · rw [if_pos h1] at hd
    simp at hd
    rw [← hd]
    decide
  · rw [if_neg h1] at hd
    by_cases h2 : c = '>'
    · rw [if_pos h2] at hd
      simp at hd
      rw [← hd]
      decide
    · rw [if_neg h2] at hd
      simp at hd
      rw [← hd]
      exact hc

theorem jsTrimL_xssEscapeL_jsTrimL (l : List Char) :
    jsTrimL (xssEscapeL (jsTrimL l)) = xssEscapeL (jsTrimL l) := by
  cases hm : jsTrimL l with
  | nil => rfl
  | cons c t =>
    have hc : isJsWs c = false := dropEnds_head_not hm
    show dropEnds isJsWs (xssEscapeL (c :: t)) = xssEscapeL (c :: t)
    apply dropEnds_eq_self
    · intro d hd
      exact xssEscapeL_head_not_ws hc t d hd
    · intro d hd
      rcases List.eq_nil_or_concat (c :: t) with h | ⟨L, e, hLe⟩
      · simp at h
      · have he : isJsWs e = false := by
          have hg : (dropEnds isJsWs l).getLast? = some e := by
            show (jsTrimL l).getLast? = some e
            rw [hm, hLe, List.concat_eq_append, List.getLast?_concat]
          exact dropEnds_getLast_not hg
        rw [hLe, List.concat_eq_append] at hd
        exact xssEscapeL_getLast_not_ws he L d hd

theorem sanitizeStr_idem (s : String) :
    sanitizeStr (sanitizeStr s) = sanitizeStr s := by
  apply String.ext
  show xssEscapeL (jsTrimL (xssEscapeL (jsTrimL s.data))) = xssEscapeL (jsTrimL s.data)
  rw [jsTrimL_xssEscapeL_jsTrimL, xssEscapeL_idem]

/-- C8: `sanitizeInput` is a pure function, idempotent on every JavaScript
value (`sanitize(sanitize(x)) = sanitize(x)`), and returns every non-string
input unchanged. -/
theorem C8_sanitizeInput_idempotent :
    (∀ v : JsValue, sanitizeInput (sanitizeInput v) = sanitizeInput v)
  ∧ (∀ v : JsValue, (∀ s, v ≠ JsValue.str s) → sanitizeInput v = v) := by
  constructor
  · intro v
    cases v with
    | str s =>
      show JsValue.str (sanitizeStr (sanitizeStr s)) = JsValue.str (sanitizeStr s)
      rw [sanitizeStr_idem]
    | num n => rfl
    | bool b => rfl
    | null => rfl
    | undef => rfl
    | arr xs => rfl
    | obj fs => rfl
  · intro v hv
    cases v with
    | str s => exact absurd rfl (hv s)
    | num n => rfl
    | bool b => rfl
    | null => rfl
    | undef => rfl
    | arr xs => rfl
    | obj fs => rfl

/-- Witness for C8 at concrete inputs: a markup-laden string and a number. -/
theorem C8_sanitizeInput_idempotent_witness :
    sanitizeInput (sanitizeInput (JsValue.str "  <b>hi</b>  ")) =
      sanitizeInput (JsValue.str "  <b>hi</b>  ")
  ∧ sanitizeInput (JsValue.num 7) = JsValue.num 7 :=
  ⟨C8_sanitizeInput_idempotent.1 (JsValue.str "  <b>hi</b>  "),
   C8_sanitizeInput_idempotent.2 (JsValue.num 7) (fun _ h => JsValue.noConfusion h)⟩

theorem find?_map_pres {α : Type} (l : List α) (p : α → Bool) (f : α → α)
    (hp : ∀ a, p (f a) = p a) :
    (l.map (fun a => if p a then f a else a)).find? p = (l.find? p).map f := by
  induction l with
  | nil => rfl
  | cons a t ih =>
    by_cases ha : p a = true
    · simp [List.find?_cons, if_pos ha, hp, ha]
    · have ha' : p a = false := by simpa using ha
      simp [List.find?_cons, if_neg ha, ha', ih]

/-- C3 (amended): a write request whose validation chains report errors is
answered with the `400 Validation failed` response listing those errors and
leaves the database completely unchanged — no entity row is written and no
audit entry is created (the sanitizers inside the chains have, however,
already been applied to the in-memory payload); and a chiropractor payload
with phone "abc" always carries a violation for field `phone`. -/
theorem C3_validation_halts_before_writes :
    (∀ (aF : Bool) (actor : Nat) (ip : String) (op : AdminOp) (db : DB),
      opValidationErrs op ≠ [] →
      runOp aF actor ip op db = (.validationFailed (opValidationErrs op), db))
  ∧ (∀ p : ChiroPayload, p.phone = some "abc" →
      (⟨"phone", "Invalid phone number format"⟩ : FieldError) ∈
        (chiroValidate p).2) := by
  constructor
  · intro aF actor ip op db h
    cases op with
    | chiroCreate now p =>
      have hne : ((chiroValidate p).2.isEmpty) = false := by
        simpa [List.isEmpty_iff, opValidationErrs] using h
      simp [runOp, createChiropractor, hne, opValidationErrs]
    | chiroUpdate cid p =>
      have hne : ((idValidationErrs cid ++ (chiroValidate p).2).isEmpty) = false := by
        simpa [List.isEmpty_iff, opValidationErrs] using h
      simp [runOp, updateChiropractor, hne, opValidationErrs]
    | chiroDelete cid =>
      have hne : ((idValidationErrs cid).isEmpty) = false := by
        simpa [List.isEmpty_iff, opValidationErrs] using h
      simp [runOp, deleteChiropractor, hne, opValidationErrs]
    | chiroRestore cid => simp [opValidationErrs] at h
    | chiroPermanentDelete cid => simp [opValidationErrs] at h
    | blogCreate now p =>
      have hne : ((blogValidate p).2.isEmpty) = false := by
        simpa [List.isEmpty_iff, opValidationErrs] using h
      simp [runOp, createBlogPost, hne, opValidationErrs]
    | blogUpdate now pid p =>
      have hne : ((idValidationErrs pid ++ (blogValidate p).2).isEmpty) = false := by
        simpa [List.isEmpty_iff, opValidationErrs] using h
      simp [runOp, updateBlogPost, hne, opValidationErrs]
    | blogDelete pid =>
      have hne : ((idValidationErrs pid).isEmpty) = false := by
        simpa [List.isEmpty_iff, opValidationErrs] using h
      simp [runOp, deleteBlogPost, hne, opValidationErrs]
    | blogTogglePublish now pid => simp [opValidationErrs] at h
    | settingUpdate key value => simp [opValidationErrs] at h
    | settingsBulk body => simp [opValidationErrs] at h
    | settingCreate p =>
      have hne : ((settingsValidate p).2.isEmpty) = false := by
        simpa [List.isEmpty_iff, opValidationErrs] using h
      simp [runOp, createSetting, hne, opValidationErrs]
    | settingDelete key => simp [opValidationErrs] at h
    | userCreate hash now p =>
      have hne : ((newUserValidate p).2.isEmpty) = false := by
        simpa [List.isEmpty_iff, opValidationErrs] using h
      simp [runOp, createUser, hne, opValidationErrs]
    | userToggle uid => simp [opValidationErrs] at h
  · intro p hp
    have hmem : (⟨"phone", "Invalid phone number format"⟩ : FieldError) ∈
        (chainChiroPhone p.phone).2 := by
      rw [hp]
      decide
    simp only [chiroValidate]
    exact List.mem_append_left _ (List.mem_append_left _
      (List.mem_append_left _ (List.mem_append_left _
        (List.mem_append_right _ hmem))))

/-- Counterexample for C3 as stated: on this payload the phone field fails
validation, yet the sanitizer of the name chain has already rewritten the
payload (the stored name is the escaped, trimmed string) — the pipeline
halts before any write, but not before sanitization. -/
theorem C3_sanitizer_runs_on_invalid_payload :
    (chiroValidate cexPayload).2 ≠ []
  ∧ (chiroValidate cexPayload).1.name = some "&lt;b&gt;x&lt;/b&gt;"
  ∧ (chiroValidate cexPayload).1.name ≠ cexPayload.name := by decide

/-- Witness for C3 at a concrete input: the counterexample payload fails
validation, so the create route answers 400 and leaves a one-row database
unchanged, and its error list names the phone field. -/
theorem C3_validation_halts_witness :
    runOp false 1 "127.0.0.1" (.chiroCreate 0 cexPayload)
        ⟨[], [], [], [], [], 1⟩ =
      (.validationFailed (opValidationErrs (.chiroCreate 0 cexPayload)),
        ⟨[], [], [], [], [], 1⟩)
  ∧ (⟨"phone", "Invalid phone number format"⟩ : FieldError) ∈
      (chiroValidate cexPayload).2 :=
  ⟨C3_validation_halts_before_writes.1 false 1 "127.0.0.1"
      (.chiroCreate 0 cexPayload) ⟨[], [], [], [], [], 1⟩ (by decide),
   C3_validation_halts_before_writes.2 cexPayload rfl⟩

set_option maxHeartbeats 1000000 in
/-- C2 failing run: when the audit `INSERT` fails, the create route answers
500 yet the chiropractor row is already durably inserted and the audit log
is empty — the entity write and the audit append are separate statements
with no enclosing transaction, so the mutation survives without its audit
record. -/
theorem C2_audit_failure_keeps_mutation :
    (runOp true 1 "127.0.0.1" (.chiroCreate 0 validChiroPayload)
        ⟨[], [], [], [], [], 1⟩).1 = .err 500 "Failed to create chiropractor"
  ∧ (runOp true 1 "127.0.0.1" (.chiroCreate 0 validChiroPayload)
        ⟨[], [], [], [], [], 1⟩).2.chiropractors.length = 1
  ∧ (runOp true 1 "127.0.0.1" (.chiroCreate 0 validChiroPayload)
        ⟨[], [], [], [], [], 1⟩).2.audit_log = [] := by decide

/-- C5: in required mode an expired credential is answered
`401 Token expired.`, a malformed or unsigned one `401 Invalid token.`, and
a credential whose subject is a deactivated account
`401 Account is deactivated.`; every failure is a `denied` outcome, which
attaches no identity to the request. -/
theorem C5_verifyToken_failures :
    (∀ (jv : String → JwtResult) (db : DB) (r : AuthReq) (t : String),
      extractToken r = some t → jv t = .expired →
      verifyToken jv db r = .denied 401 "Token expired.")
  ∧ (∀ (jv : String → JwtResult) (db : DB) (r : AuthReq) (t : String),
      extractToken r = some t → jv t = .malformed →
      verifyToken jv db r = .denied 401 "Invalid token.")
  ∧ (∀ (jv : String → JwtResult) (db : DB) (r : AuthReq) (t : String)
      (uid : Nat) (u : UserAccount),
      extractToken r = some t → jv t = .valid uid →
      findUser db uid = some u → u.is_active = false →
      verifyToken jv db r = .denied 401 "Account is deactivated.")
  ∧ (∀ (jv : String → JwtResult) (db : DB) (r : AuthReq) (s : Nat)
      (m : String) (u : UserAccount),
      verifyToken jv db r = .denied s m → verifyToken jv db r ≠ .authed u) := by
  refine ⟨?_, ?_, ?_, ?_⟩
  · intro jv db r t h1 h2
    simp [verifyToken, h1, h2]
  · intro jv db r t h1 h2
    simp [verifyToken, h1, h2]
  · intro jv db r t uid u h1 h2 h3 h4
    simp [verifyToken, h1, h2, h3, h4]
  · intro jv db r s m u h1 h2
    rw [h1] at h2
    exact AuthOutcome.noConfusion h2

/-- Witness for C5: each failure mode exercised at a concrete request. -/
theorem C5_verifyToken_failures_witness :
    verifyToken jvW dbW ⟨some "Bearer e", none⟩ = .denied 401 "Token expired."
  ∧ verifyToken jvW dbW ⟨some "Bearer m", none⟩ = .denied 401 "Invalid token."
  ∧ verifyToken jvW dbW ⟨none, some "t"⟩ =
      .denied 401 "Account is deactivated."
  ∧ verifyToken jvW dbW ⟨some "Bearer e", none⟩ ≠
      .authed ⟨1, "a@b.com", "h", "A", "admin", false, 0⟩ :=
  ⟨C5_verifyToken_failures.1 jvW dbW ⟨some "Bearer e", none⟩ "e"
      (by decide) (by decide),
   C5_verifyToken_failures.2.1 jvW dbW ⟨some "Bearer m", none⟩ "m"
      (by decide) (by decide),
   C5_verifyToken_failures.2.2.1 jvW dbW ⟨none, some "t"⟩ "t" 1
      ⟨1, "a@b.com", "h", "A", "admin", false, 0⟩ (by decide) (by decide)
      (by decide) (by decide),
   C5_verifyToken_failures.2.2.2 jvW dbW ⟨some "Bearer e", none⟩ 401
      "Token expired." ⟨1, "a@b.com", "h", "A", "admin", false, 0⟩
      (C5_verifyToken_failures.1 jvW dbW ⟨some "Bearer e", none⟩ "e"
        (by decide) (by decide))⟩

/-- C10: a login with an email matching no account and a login with a known
active account but wrong password are answered identically — the same 401
status, the same message, the same payload — and both leave the store
unchanged, so the response does not reveal whether the account exists. -/
theorem C10_login_no_account_probe :
    ∀ (bc : String → String → Bool) (sign : Nat → String → String → String)
      (ip ua : String) (p1 p2 : LoginPayload) (db : DB) (u : UserAccount),
      (loginValidate p1).2 = [] → (loginValidate p2).2 = [] →
      findUserByEmail db
        (jsLowerStr ((loginValidate p1).1.email.getD "")) = none →
      findUserByEmail db
        (jsLowerStr ((loginValidate p2).1.email.getD "")) = some u →
      u.is_active = true →
      bc ((loginValidate p2).1.password.getD "") u.password = false →
      loginRoute bc sign ip ua p1 db = (.err 401 "Invalid email or password", db)
      ∧ loginRoute bc sign ip ua p2 db =
          (.err 401 "Invalid email or password", db) := by
  intro bc sign ip ua p1 p2 db u h1 h2 hf1 hf2 hact hbc
  constructor
  · simp [loginRoute, h1, hf1]
  · simp [loginRoute, h2, hf2, hact, hbc]

/-- Witness for C10: an unknown email and a wrong password against the
concrete store produce the same response. -/
theorem C10_login_no_account_probe_witness :
    loginRoute (fun _ _ => false) (fun _ _ _ => "") "ip" "ua"
        ⟨some "x@y.com", some "pw"⟩ dbLoginW =
      (.err 401 "Invalid email or password", dbLoginW)
  ∧ loginRoute (fun _ _ => false) (fun _ _ _ => "") "ip" "ua"
        ⟨some "a@b.com", some "pw"⟩ dbLoginW =
      (.err 401 "Invalid email or password", dbLoginW) :=
  C10_login_no_account_probe (fun _ _ => false) (fun _ _ _ => "") "ip" "ua"
    ⟨some "x@y.com", some "pw"⟩ ⟨some "a@b.com", some "pw"⟩ dbLoginW
    ⟨1, "a@b.com", "hash", "A", "admin", true, 0⟩
    (by decide) (by decide) (by decide) (by decide) (by decide) (by decide)

theorem find?_id_of_mem {α : Type} (key : α → Nat) :
    ∀ (l : List α), (l.map key).Nodup → ∀ a ∈ l,
      l.find? (fun x => key x == key a) = some a
  | [], _, a, ha => absurd ha (List.not_mem_nil a)
  | b :: t, h, a, ha => by
    rw [List.map_cons] at h
    rcases List.mem_cons.mp ha with h' | h'
    · subst h'
      simp [List.find?_cons]
    · have hne : key b ≠ key a := by
        intro he
        have hmem : key a ∈ t.map key := List.mem_map_of_mem key h'
        rw [← he] at hmem
        exact (List.nodup_cons.mp h).1 hmem
    
      have hb : (key b == key a) = false := by simpa using hne
      simp only [List.find?_cons, hb]
      exact find?_id_of_mem key t (List.nodup_cons.mp h).2 a h'

theorem bump_map_mem_of_ne {l : List BlogPost} {q : BlogPost} {i : Nat}
    (hq : q ∈ l) (hne : q.id ≠ i) :
    q ∈ l.map (fun r => if r.id == i then bumpViews r
      else r) := by
  have hb : (q.id == i) = false := by simpa using hne
  have hmm := List.mem_map_of_mem
    (fun r => if r.id == i then bumpViews r else r) hq
  simpa [hb] using hmm

theorem bump_map_mem_rev {l : List BlogPost} {q' : BlogPost} {i : Nat}
    (hq : q' ∈ l.map (fun r => if r.id == i then
      bumpViews r else r)) (hne : q'.id ≠ i) :
    q' ∈ l := by
  rcases List.mem_map.mp hq with ⟨q, hqmem, hfq⟩
  by_cases hb : (q.id == i) = true
  · rw [if_pos hb] at hfq
    have hqi : q.id = i := by simpa using hb
    have : q'.id = i := by
      rw [← hfq]
      exact hqi
    exact absurd this hne
  · rw [if_neg hb] at hfq
    exact hfq ▸ hqmem

theorem viewBump_shape (db : DB) (pred : BlogPost → Bool) (p : BlogPost)
    (hnd : (db.blog_posts.map (fun q => q.id)).Nodup)
    (hfound : db.blog_posts.find? pred = some p) :
    let db' := db.setPosts (db.blog_posts.map
      (fun q => if q.id == p.id then bumpViews q else q))
    findPost db' p.id = some (bumpViews p)
    ∧ (∀ q ∈ db.blog_posts, q.id ≠ p.id → q ∈ db'.blog_posts)
    ∧ (∀ q ∈ db'.blog_posts, q.id ≠ p.id → q ∈ db.blog_posts)
    ∧ db'.blog_posts.length = db.blog_posts.length
    ∧ db'.audit_log = db.audit_log ∧ db'.chiropractors = db.chiropractors
    ∧ db'.site_settings = db.site_settings ∧ db'.users = db.users := by
  intro db'
  have hpmem : p ∈ db.blog_posts := List.mem_of_find?_eq_some hfound
  have hfp : db.blog_posts.find? (fun x => x.id == p.id) = some p :=
    find?_id_of_mem (fun q => q.id) db.blog_posts hnd p hpmem
  refine ⟨?_, ?_, ?_, ?_, rfl, rfl, rfl, rfl⟩
  · have hmp := find?_map_pres db.blog_posts (fun q : BlogPost => q.id == p.id)
      (fun q => bumpViews q) (fun _ => rfl)
    have hfin : (db.blog_posts.find? (fun x : BlogPost => x.id == p.id)).map
        (fun q => bumpViews q) =
        some (bumpViews p) := by
      rw [hfp]
      rfl
    exact hmp.trans hfin
  · exact fun q hq hne => bump_map_mem_of_ne hq hne
  · exact fun q hq hne => bump_map_mem_rev hq hne
  · exact List.length_map _ _

/-- C9: a public single-post read, by slug or by numeric id, that hits a
published post answers that post and increments exactly its view counter,
leaving every other field of the post, every other post and every other
table (the audit log included) unchanged; a missing or unpublished post is
answered 404 with no state change at all. -/
theorem C9_view_counter :
    (∀ (db : DB) (slug : String) (p : BlogPost),
      (db.blog_posts.map (fun q => q.id)).Nodup →
      db.blog_posts.find? (fun q => q.slug == slug && q.is_published) = some p →
      ∃ db', getBlogPostBySlug slug db = (.ok 200 (.post p), db')
        ∧ findPost db' p.id = some (bumpViews p)
        ∧ (∀ q ∈ db.blog_posts, q.id ≠ p.id → q ∈ db'.blog_posts)
        ∧ (∀ q ∈ db'.blog_posts, q.id ≠ p.id → q ∈ db.blog_posts)
        ∧ db'.blog_posts.length = db.blog_posts.length
        ∧ db'.audit_log = db.audit_log ∧ db'.chiropractors = db.chiropractors
        ∧ db'.site_settings = db.site_settings ∧ db'.users = db.users)
  ∧ (∀ (db : DB) (slug : String),
      db.blog_posts.find? (fun q => q.slug == slug && q.is_published) = none →
      getBlogPostBySlug slug db = (.err 404 "Blog post not found", db))
  ∧ (∀ (db : DB) (pid : Nat) (p : BlogPost), 1 ≤ pid →
      (db.blog_posts.map (fun q => q.id)).Nodup →
      db.blog_posts.find? (fun q => q.id == pid && q.is_published) = some p →
      ∃ db', getBlogPostById pid db = (.ok 200 (.post p), db')
        ∧ findPost db' p.id = some (bumpViews p)
        ∧ (∀ q ∈ db.blog_posts, q.id ≠ p.id → q ∈ db'.blog_posts)
        ∧ (∀ q ∈ db'.blog_posts, q.id ≠ p.id → q ∈ db.blog_posts)
        ∧ db'.blog_posts.length = db.blog_posts.length
        ∧ db'.audit_log = db.audit_log ∧ db'.chiropractors = db.chiropractors
        ∧ db'.site_settings = db.site_settings ∧ db'.users = db.users)
  ∧ (∀ (db : DB) (pid : Nat), 1 ≤ pid →
      db.blog_posts.find? (fun q => q.id == pid && q.is_published) = none →
      getBlogPostById pid db = (.err 404 "Blog post not found", db)) := by
  refine ⟨?_, ?_, ?_, ?_⟩
  · intro db slug p hnd hfound
    have hrun : getBlogPostBySlug slug db = (.ok 200 (.post p),
        db.setPosts (db.blog_posts.map (fun q => if q.id == p.id then
          bumpViews q else q))) := by
      unfold getBlogPostBySlug
      rw [hfound]
    exact ⟨_, hrun, viewBump_shape db _ p hnd hfound⟩
  · intro db slug hnone
    simp [getBlogPostBySlug, hnone]
  · intro db pid p hpid hnd hfound
    have hid : idValidationErrs pid = [] := by
      unfold idValidationErrs
      rw [if_neg (by omega)]
    have hrun : getBlogPostById pid db = (.ok 200 (.post p),
        db.setPosts (db.blog_posts.map (fun q => if q.id == p.id then
          bumpViews q else q))) := by
      unfold getBlogPostById
      rw [hid, hfound]
      rfl
    exact ⟨_, hrun, viewBump_shape db _ p hnd hfound⟩
  · intro db pid hpid hnone
    have hid : idValidationErrs pid = [] := by
      unfold idValidationErrs
      rw [if_neg (by omega)]
    simp [getBlogPostById, hid, hnone]

/-- Witness for C9: the slug read and the id read of the concrete store's
post both succeed and bump its counter from 5 to 6; a missing slug and a
missing id are both 404s. -/
theorem C9_view_counter_witness :
    (∃ db', getBlogPostBySlug "t-slug" dbPostW =
        (.ok 200 (.post ⟨1, "t", "t-slug", "c", none, "a", none, [], none,
          none, true, 5, 0, some 0⟩), db')
      ∧ findPost db' 1 = some ⟨1, "t", "t-slug", "c", none, "a", none, [],
          none, none, true, 6, 0, some 0⟩)
  ∧ getBlogPostBySlug "nope" dbPostW = (.err 404 "Blog post not found", dbPostW)
  ∧ getBlogPostById 7 dbPostW = (.err 404 "Blog post not found", dbPostW) := by
  refine ⟨?_, ?_, ?_⟩
  · rcases C9_view_counter.1 dbPostW "t-slug"
      ⟨1, "t", "t-slug", "c", none, "a", none, [], none, none, true, 5, 0,
        some 0⟩ (by decide) (by decide) with ⟨db', h1, h2, _⟩
    exact ⟨db', h1, h2⟩
  · exact C9_view_counter.2.1 dbPostW "nope" (by decide)
  · exact C9_view_counter.2.2.2 dbPostW 7 (by omega) (by decide)

theorem createSlugSuffixed_ne (t s : String) :
    createSlugSuffixed t s ≠ createSlug t := by
  intro h
  have hl := congrArg String.length h
  unfold createSlugSuffixed at hl
  rw [String.length_append, String.length_append] at hl
  have hone : ("-" : String).length = 1 := rfl
  rw [hone] at hl
  omega

/-- C6: when a blog post is created while an existing post already holds the
derived base slug, the pipeline stores the base slug extended by the base-36
timestamp suffix — a strictly longer, hence different, slug — and answers
201, surfacing no conflict error to the caller for that first collision. -/
theorem C6_slug_collision_suffix :
    ∀ (actor : Nat) (ip : String) (now : Nat) (p0 : BlogPayload) (db : DB),
      (blogValidate p0).2 = [] →
      db.blog_posts.any (fun q =>
        q.slug == createSlug ((blogValidate p0).1.title.getD "")) = true →
      db.blog_posts.any (fun q => q.slug ==
        createSlugSuffixed ((blogValidate p0).1.title.getD "")
          (toBase36 now)) = false →
      ∃ row db', createBlogPost false actor ip now p0 db =
          (.ok 201 (.post row), db')
        ∧ row.slug = createSlugSuffixed ((blogValidate p0).1.title.getD "")
            (toBase36 now)
        ∧ row.slug ≠ createSlug ((blogValidate p0).1.title.getD "") := by
  intro actor ip now p0 db hv hcol hfree
  have hrow : ∃ row db', createBlogPost false actor ip now p0 db =
      (.ok 201 (.post row), db')
    ∧ row.slug = createSlugSuffixed ((blogValidate p0).1.title.getD "")
        (toBase36 now) := by
    simp only [createBlogPost]
    rw [hv, hcol]
    simp only [List.isEmpty_nil, Bool.not_true, Bool.false_eq_true, if_false,
      eq_self_iff_true, if_true]
    rw [hfree]
    simp only [Bool.false_eq_true, if_false]
    exact ⟨_, _, rfl, rfl⟩
  rcases hrow with ⟨row, db', h1, h2⟩
  exact ⟨row, db', h1, h2, h2 ▸ createSlugSuffixed_ne _ _⟩

set_option maxHeartbeats 1000000 in
/-- Witness for C6: creating a second "Hello World Post" at timestamp 0
succeeds with slug "hello-world-post-0", different from the taken slug. -/
theorem C6_slug_collision_suffix_witness :
    ∃ row db', createBlogPost false 1 "ip" 0 blogPayloadW dbBlogW =
        (.ok 201 (.post row), db')
      ∧ row.slug = "hello-world-post-0" ∧ row.slug ≠ "hello-world-post" := by
  rcases C6_slug_collision_suffix 1 "ip" 0 blogPayloadW dbBlogW (by decide)
    (by decide) (by decide) with ⟨row, db', h1, h2, -⟩
  refine ⟨row, db', h1, ?_, ?_⟩
  · rw [h2]
    decide
  · rw [h2]
    decide

theorem find?_and_of_find? {α : Type} {p q : α → Bool} {a : α} :
    ∀ (l : List α), l.find? p = some a → q a = true →
      l.find? (fun x => p x && q x) = some a
  | [], h, _ => by simp at h
  | b :: t, h, hq => by
    by_cases hb : p b = true
    · rw [List.find?_cons_of_pos t hb] at h
      have hab : b = a := by simpa using h
      subst hab
      exact List.find?_cons_of_pos t (by rw [hb, hq, Bool.and_self])
    · rw [List.find?_cons_of_neg t hb] at h
      have : (p b && q b) = false := by
        have hb' : p b = false := by simpa using hb
        rw [hb']
        rfl
      rw [List.find?_cons_of_neg t (by simp [this])]
      exact find?_and_of_find? t h hq

theorem not_mem_ids_of_active_sub {l : List Chiropractor} {cid : Nat}
    (K : ∀ x ∈ l, (x.id == cid) = true → x.is_active = false)
    {m : List Chiropractor}
    (hm : ∀ x ∈ m, x ∈ l ∧ x.is_active = true) :
    cid ∉ m.map (fun x => x.id) := by
  intro hmem
  rcases List.mem_map.mp hmem with ⟨x, hx, hid⟩
  rcases hm x hx with ⟨hxl, hact⟩
  have : x.is_active = false := K x hxl (by simpa using hid)
  rw [hact] at this
  cases this

theorem mem_adminGetChiropractors {l : List Chiropractor} {db' : DB}
    (hc : db'.chiropractors = l) {row : Chiropractor} (hrow : row ∈ l) :
    row ∈ adminGetChiropractors 1 db'.chiropractors.length db' := by
  unfold adminGetChiropractors paginate
  rw [hc]
  rw [show (1 - 1) * l.length = 0 from by omega, List.drop_zero,
    show l.length = (l.mergeSort adminChiroLe).length from
      (List.length_mergeSort _).symm,
    List.take_length]
  exact List.mem_mergeSort.mpr hrow

theorem getChiropractorPub_404 {l : List Chiropractor} {db' : DB}
    (hc : db'.chiropractors = l) {cid : Nat} (hcid : 1 ≤ cid)
    (hnone : l.find? (fun x => x.id == cid && x.is_active) = none) :
    getChiropractorPub cid db' = .err 404 "Chiropractor not found" := by
  unfold getChiropractorPub
  rw [show idValidationErrs cid = [] from by
    unfold idValidationErrs
    rw [if_neg (by omega)], hc, hnone]
  rfl

theorem getChiropractorPub_ok {l : List Chiropractor} {db' : DB}
    (hc : db'.chiropractors = l) {cid : Nat} (hcid : 1 ≤ cid)
    {row : Chiropractor}
    (hsome : l.find? (fun x => x.id == cid && x.is_active) = some row) :
    getChiropractorPub cid db' = .ok 200 (.chiroView (chiroView row)) := by
  unfold getChiropractorPub
  rw [show idValidationErrs cid = [] from by
    unfold idValidationErrs
    rw [if_neg (by omega)], hc, hsome]
  rfl

theorem activeChiros_absent {l : List Chiropractor} {db' : DB}
    (hc : db'.chiropractors = l) {cid : Nat}
    (K : ∀ x ∈ l, (x.id == cid) = true → x.is_active = false) :
    cid ∉ (activeChiros db').map (fun x => x.id) := by
  unfold activeChiros
  rw [hc]
  exact not_mem_ids_of_active_sub K
    (fun x hx => ⟨(List.mem_filter.mp hx).1, (List.mem_filter.mp hx).2⟩)

theorem publicChirosFiltered_absent {l : List Chiropractor} {db' : DB}
    (hc : db'.chiropractors = l) {cid : Nat}
    (K : ∀ x ∈ l, (x.id == cid) = true → x.is_active = false) :
    cid ∉ (publicChirosFiltered none none db').map (fun x => x.id) := by
  unfold publicChirosFiltered
  rw [hc]
  apply not_mem_ids_of_active_sub K
  intro x hx
  rcases List.mem_filter.mp hx with ⟨hxl, hpred⟩
  simp only [Bool.and_eq_true] at hpred
  exact ⟨hxl, hpred.1.1⟩

theorem chirosByState_absent {l : List Chiropractor} {db' : DB}
    (hc : db'.chiropractors = l) {cid : Nat} {st : String}
    (K : ∀ x ∈ l, (x.id == cid) = true → x.is_active = false) :
    cid ∉ (chirosByState st db').map (fun x => x.id) := by
  unfold chirosByState
  rw [hc]
  apply not_mem_ids_of_active_sub K
  intro x hx
  have hx' := List.mem_mergeSort.mp hx
  rcases List.mem_filter.mp hx' with ⟨hxl, hpred⟩
  simp only [Bool.and_eq_true] at hpred
  exact ⟨hxl, hpred.2⟩

theorem relatedChiroPool_absent {l : List Chiropractor} {db' : DB}
    (hc : db'.chiropractors = l) {cid : Nat}
    (K : ∀ x ∈ l, (x.id == cid) = true → x.is_active = false) :
    ∀ bid pool, relatedChiroPool bid db' = some pool →
      cid ∉ pool.map (fun x => x.id) := by
  intro bid pool hpool
  unfold relatedChiroPool at hpool
  rw [hc] at hpool
  cases hf : l.find? (fun x => x.id == bid && x.is_active) with
  | none =>
    rw [hf] at hpool
    cases hpool
  | some c0 =>
    rw [hf] at hpool
    have hpool' : l.filter (fun x =>
        x.state == c0.state && x.id != bid && x.is_active) = pool := by
      simpa using hpool
    rw [← hpool']
    apply not_mem_ids_of_active_sub K
    intro x hx
    rcases List.mem_filter.mp hx with ⟨hxl, hpred⟩
    simp only [Bool.and_eq_true] at hpred
    exact ⟨hxl, hpred.2⟩

/-- C7: the standard delete of a chiropractor updates the active flag rather
than removing the row: afterwards the row is still found by the
identifier-only lookup and appears in the admin listing, while every public
active-only read path excludes it (single row, list, by-state, related pool,
the active aggregation base); a subsequent restore answers the row with all
field values identical except the active flag and the public single-row read
succeeds again. -/
theorem C7_soft_delete_restore :
    ∀ (actor : Nat) (ip : String) (cid : Nat) (c : Chiropractor) (db : DB),
      1 ≤ cid → findChiro db cid = some c →
      ∃ db', deleteChiropractor false actor ip cid db = (.ok 200 .empty, db')
        ∧ findChiro db' cid = some (chiroSetActive false c)
        ∧ db'.chiropractors.length = db.chiropractors.length
        ∧ chiroSetActive false c ∈
            adminGetChiropractors 1 db'.chiropractors.length db'
        ∧ getChiropractorPub cid db' = .err 404 "Chiropractor not found"
        ∧ cid ∉ (activeChiros db').map (fun x => x.id)
        ∧ cid ∉ (publicChirosFiltered none none db').map (fun x => x.id)
        ∧ cid ∉ (chirosByState c.state db').map (fun x => x.id)
        ∧ (∀ bid pool, relatedChiroPool bid db' = some pool →
            cid ∉ pool.map (fun x => x.id))
        ∧ ∃ db'', restoreChiropractor false actor ip cid db' =
              (.ok 200 (.chiro (chiroSetActive true c)), db'')
            ∧ findChiro db'' cid = some (chiroSetActive true c)
            ∧ getChiropractorPub cid db'' =
                .ok 200 (.chiroView (chiroView (chiroSetActive true c))) := by
  intro actor ip cid c db hcid hfind
  have hid0 : idValidationErrs cid = [] := by
    unfold idValidationErrs
    rw [if_neg (by omega)]
  have hfind' : List.find? (fun x : Chiropractor => x.id == cid)
      db.chiropractors = some c := hfind
  have hbeqc : (c.id == cid) = true :=
    @List.find?_some Chiropractor (fun x => x.id == cid) c db.chiropractors
      hfind'
  have hrun : deleteChiropractor false actor ip cid db = (.ok 200 .empty,
      (db.setChiros (db.chiropractors.map (fun x =>
        if x.id == cid then chiroSetActive false x else x))).appendAudit
        ⟨some actor, "delete", some "chiropractor", some cid,
         some (.chiro c), none, some ip, none⟩) := by
    unfold deleteChiropractor
    rw [hid0, hfind]
    rfl
  have hc1 : ((db.setChiros (db.chiropractors.map (fun x =>
      if x.id == cid then chiroSetActive false x else x))).appendAudit
      ⟨some actor, "delete", some "chiropractor", some cid,
       some (.chiro c), none, some ip, none⟩).chiropractors =
      db.chiropractors.map (fun x =>
        if x.id == cid then chiroSetActive false x else x) := rfl
  have K : ∀ x ∈ db.chiropractors.map (fun x =>
      if x.id == cid then chiroSetActive false x else x),
      (x.id == cid) = true → x.is_active = false := by
    intro x hx hxid
    rcases List.mem_map.mp hx with ⟨a, ha, hfa⟩
    by_cases hab : (a.id == cid) = true
    · rw [if_pos hab] at hfa
      rw [← hfa]
      rfl
    · rw [if_neg hab] at hfa
      rw [← hfa] at hxid
      exact absurd hxid hab
  have hfind1 : findChiro ((db.setChiros (db.chiropractors.map (fun x =>
      if x.id == cid then chiroSetActive false x else x))).appendAudit
      ⟨some actor, "delete", some "chiropractor", some cid,
       some (.chiro c), none, some ip, none⟩) cid =
      some (chiroSetActive false c) := by
    have hmp := find?_map_pres db.chiropractors
      (fun x : Chiropractor => x.id == cid)
      (fun x => chiroSetActive false x) (fun _ => rfl)
    have hval : (db.chiropractors.find?
        (fun x : Chiropractor => x.id == cid)).map
        (fun x => chiroSetActive false x) =
        some (chiroSetActive false c) := by
      rw [hfind']
      rfl
    exact hmp.trans hval
  have hnone1 : (db.chiropractors.map (fun x =>
      if x.id == cid then chiroSetActive false x else x)).find?
        (fun x => x.id == cid && x.is_active) = none := by
    apply List.find?_eq_none.mpr
    intro x hx h
    simp only [Bool.and_eq_true] at h
    have := K x hx h.1
    rw [this] at h
    exact Bool.false_ne_true h.2
  refine ⟨_, hrun, hfind1, List.length_map _ _, ?_, ?_, ?_, ?_, ?_, ?_, ?_⟩
  · apply mem_adminGetChiropractors hc1
    have hmm := List.mem_map_of_mem
      (fun x => if x.id == cid then chiroSetActive false x else x)
      (List.mem_of_find?_eq_some hfind')
    simpa [hbeqc] using hmm
  · exact getChiropractorPub_404 hc1 hcid hnone1
  · exact activeChiros_absent hc1 K
  · exact publicChirosFiltered_absent hc1 K
  · exact chirosByState_absent hc1 K
  · exact relatedChiroPool_absent hc1 K
  · have hfindL : (db.chiropractors.map (fun x =>
        if x.id == cid then chiroSetActive false x else x)).find?
        (fun x => x.id == cid) = some (chiroSetActive false c) := hfind1
    have hrun2 : restoreChiropractor false actor ip cid
        ((db.setChiros (db.chiropractors.map (fun x =>
        if x.id == cid then chiroSetActive false x else x))).appendAudit
        ⟨some actor, "delete", some "chiropractor", some cid,
         some (.chiro c), none, some ip, none⟩) =
        (.ok 200 (.chiro (chiroSetActive true c)),
          ((((db.setChiros (db.chiropractors.map (fun x =>
        if x.id == cid then chiroSetActive false x else x))).appendAudit
        ⟨some actor, "delete", some "chiropractor", some cid,
         some (.chiro c), none, some ip, none⟩).setChiros
        (((db.setChiros (db.chiropractors.map (fun x =>
        if x.id == cid then chiroSetActive false x else x))).appendAudit
        ⟨some actor, "delete", some "chiropractor", some cid,
         some (.chiro c), none, some ip, none⟩).chiropractors.map
          (fun x => if x.id == cid then chiroSetActive true x else x))).appendAudit
        ⟨some actor, "restore", some "chiropractor", some cid, none, none,
         some ip, none⟩)) := by
      unfold restoreChiropractor
      rw [hfind1]
      rfl
    have hmp2 := find?_map_pres (db.chiropractors.map (fun x =>
        if x.id == cid then chiroSetActive false x else x))
      (fun x : Chiropractor => x.id == cid)
      (fun x => chiroSetActive true x) (fun _ => rfl)
    have hval2 : (((db.chiropractors.map (fun x =>
        if x.id == cid then chiroSetActive false x else x)).find?
        (fun x : Chiropractor => x.id == cid)).map
        (fun x => chiroSetActive true x)) =
        some (chiroSetActive true c) := by
      rw [hfindL]
      rfl
    have hfind2L : ((db.chiropractors.map (fun x =>
        if x.id == cid then chiroSetActive false x else x)).map
        (fun x => if x.id == cid then chiroSetActive true x else x)).find?
        (fun x : Chiropractor => x.id == cid) =
        some (chiroSetActive true c) := hmp2.trans hval2
    have hfind2 : findChiro ((((db.setChiros (db.chiropractors.map (fun x =>
        if x.id == cid then chiroSetActive false x else x))).appendAudit
        ⟨some actor, "delete", some "chiropractor", some cid,
         some (.chiro c), none, some ip, none⟩).setChiros
        (((db.setChiros (db.chiropractors.map (fun x =>
        if x.id == cid then chiroSetActive false x else x))).appendAudit
        ⟨some actor, "delete", some "chiropractor", some cid,
         some (.chiro c), none, some ip, none⟩).chiropractors.map
          (fun x => if x.id == cid then chiroSetActive true x else x))).appendAudit
        ⟨some actor, "restore", some "chiropractor", some cid, none, none,
         some ip, none⟩) cid =
        some (chiroSetActive true c) := hfind2L
    have hcomp2 : ((db.chiropractors.map (fun x =>
        if x.id == cid then chiroSetActive false x else x)).map
        (fun x => if x.id == cid then chiroSetActive true x else x)).find?
        (fun x => x.id == cid && x.is_active) =
        some (chiroSetActive true c) :=
      find?_and_of_find? _ hfind2L rfl
    have hpub2 : getChiropractorPub cid ((((db.setChiros (db.chiropractors.map (fun x =>
        if x.id == cid then chiroSetActive false x else x))).appendAudit
        ⟨some actor, "delete", some "chiropractor", some cid,
         some (.chiro c), none, some ip, none⟩).setChiros
        (((db.setChiros (db.chiropractors.map (fun x =>
        if x.id == cid then chiroSetActive false x else x))).appendAudit
        ⟨some actor, "delete", some "chiropractor", some cid,
         some (.chiro c), none, some ip, none⟩).chiropractors.map
          (fun x => if x.id == cid then chiroSetActive true x else x))).appendAudit
        ⟨some actor, "restore", some "chiropractor", some cid, none, none,
         some ip, none⟩) =
        .ok 200 (.chiroView (chiroView (chiroSetActive true c))) :=
      getChiropractorPub_ok rfl hcid hcomp2
    exact ⟨_, hrun2, hfind2, hpub2⟩

/-- Witness for C7: deleting chiropractor 1 of the concrete store keeps the
row (inactive) for the identifier lookup, hides it from the public single
read and the active set, and restoring brings the public read back with the
original field values. -/
theorem C7_soft_delete_restore_witness :
    (deleteChiropractor false 9 "ip" 1 dbC7W).1 = .ok 200 .empty
  ∧ findChiro (deleteChiropractor false 9 "ip" 1 dbC7W).2 1 =
      some ⟨1, "A", "CA", "addr", "5", "a@b.c", none, none, none, false,
        false, 0⟩
  ∧ getChiropractorPub 1 (deleteChiropractor false 9 "ip" 1 dbC7W).2 =
      .err 404 "Chiropractor not found"
  ∧ 1 ∉ (activeChiros (deleteChiropractor false 9 "ip" 1 dbC7W).2).map
      (fun x => x.id)
  ∧ (restoreChiropractor false 9 "ip" 1
      (deleteChiropractor false 9 "ip" 1 dbC7W).2).1 =
      .ok 200 (.chiro ⟨1, "A", "CA", "addr", "5", "a@b.c", none, none, none,
        false, true, 0⟩)
  ∧ getChiropractorPub 1 (restoreChiropractor false 9 "ip" 1
      (deleteChiropractor false 9 "ip" 1 dbC7W).2).2 =
      .ok 200 (.chiroView (chiroView ⟨1, "A", "CA", "addr", "5", "a@b.c",
        none, none, none, false, true, 0⟩)) := by
  rcases C7_soft_delete_restore 9 "ip" 1
    ⟨1, "A", "CA", "addr", "5", "a@b.c", none, none, none, false, true, 0⟩
    dbC7W (by omega) (by decide) with
    ⟨db', h1, h2, h3, h4, h5, h6, h7, h8, h9, db'', h10, h11, h12⟩
  have hsnd : (deleteChiropractor false 9 "ip" 1 dbC7W).2 = db' := by
    rw [h1]
  have hfst : (deleteChiropractor false 9 "ip" 1 dbC7W).1 = .ok 200 .empty := by
    rw [h1]
  refine ⟨hfst, ?_, ?_, ?_, ?_, ?_⟩
  · rw [hsnd]
    exact h2
  · rw [hsnd]
    exact h5
  · rw [hsnd]
    exact h6
  · rw [hsnd, h10]
    rfl
  · rw [hsnd, h10]
    exact h12

theorem find?_append_new {α : Type} (key : α → Nat) (l : List α) (n : Nat)
    (hn : ∀ a ∈ l, key a < n) (row : α) (hr : key row = n) :
    (l ++ [row]).find? (fun x => key x == n) = some row := by
  rw [List.find?_append]
  have h1 : l.find? (fun x => key x == n) = none := by
    apply List.find?_eq_none.mpr
    intro x hx
    have := hn x hx
    simp only [beq_iff_eq]
    omega
  rw [h1]
  have h2 : ([row] : List α).find? (fun x => key x == n) = some row :=
    List.find?_cons_of_pos _ (by simpa using hr)
  rw [h2]
  rfl

/-- Counterexample for C1 as stated: a successful soft delete of Listing 1 —
an update, not a hard delete — appends exactly one audit entry whose
`new_values` is NULL even though the post-mutation state exists (the row is
still there, deactivated).  The claim requires `newSnapshot` to reflect the
post-mutation state and to be absent only for hard deletes. -/
theorem C1_soft_delete_lacks_new_snapshot :
    (deleteChiropractor false 9 "ip" 1 dbC1W).1 = .ok 200 .empty
  ∧ findChiro (deleteChiropractor false 9 "ip" 1 dbC1W).2 1 =
      some ⟨1, "A", "CA", "addr", "5", "a@b.c", none, none, none, false,
        false, 0⟩
  ∧ (deleteChiropractor false 9 "ip" 1 dbC1W).2.audit_log =
      [⟨some 9, "delete", some "chiropractor", some 1,
        some (.chiro ⟨1, "A", "CA", "addr", "5", "a@b.c", none, none, none,
          false, true, 0⟩), none, some "ip", none⟩] := by decide

theorem find?_set_after_update {α β : Type} [BEq β] {keyf : α → β}
    {l : List α} {k : β} {cur : α} {f : α → α}
    (hf : l.find? (fun x => keyf x == k) = some cur)
    (hid : ∀ a, keyf (f a) = keyf a) :
    (l.map (fun q => if keyf q == k then f q else q)).find?
      (fun x => keyf x == k) = some (f cur) := by
  have hmp := find?_map_pres l (fun x => keyf x == k) f
    (fun a => by
      show (keyf (f a) == k) = (keyf a == k)
      rw [hid a])
  exact hmp.trans (by rw [hf]; rfl)

/-- C1 (amended): every successful admin write appends exactly one new
audit entry in the same request, and the entry satisfies the per-operation
contract `auditContract`: entityType always names the mutated entity kind;
entityId matches the mutated record for every single-row operation except
the setting delete (which stores none), and is absent for the bulk settings
update, which covers all its mutations with one entry; oldSnapshot is the
pre-mutation row for the chiropractor and blog-post updates and for all
deletes, and absent for creates; newSnapshot is the post-mutation row for
creates and for the chiropractor and blog-post updates, but absent for
every delete — soft or permanent — and absent for the restore and the
account operations; the two partial-snapshot operations store only the
changed field on both sides: the setting update snapshots only the
setting_value, and the publish toggle snapshots only the published flag. -/
theorem C1_one_audit_entry_per_mutation :
    ∀ (actor : Nat) (ip : String) (op : AdminOp) (db : DB), db.wf →
      ((runOp false actor ip op db).1.isSuccess) = true →
      ∃ e, (runOp false actor ip op db).2.audit_log = db.audit_log ++ [e]
        ∧ auditContract actor ip op db (runOp false actor ip op db).2 e := by
  intro actor ip op db hwf hs
  obtain ⟨-, -, -, hcb, -, hpb, -, -⟩ := hwf
  cases op with
  | chiroCreate now p =>
    by_cases hv : ((chiroValidate p).2.isEmpty) = true
    · simp only [runOp, createChiropractor, hv, Bool.not_true,
        Bool.false_eq_true, if_false] at hs ⊢
      refine ⟨_, rfl, rfl, rfl, rfl, rfl, rfl, rfl, _, ?_, rfl⟩
      apply find?_append_new (fun c => c.id) db.chiropractors db.nextId hcb
      rfl
    · have hv' : ((chiroValidate p).2.isEmpty) = false := by simpa using hv
      simp only [runOp, createChiropractor, hv', Bool.not_false, if_true] at hs
      exact absurd hs (by exact Bool.false_ne_true)
  | chiroUpdate cid p =>
    by_cases hv : ((idValidationErrs cid ++ (chiroValidate p).2).isEmpty) = true
    · simp only [runOp, updateChiropractor, hv, Bool.not_true,
        Bool.false_eq_true, if_false] at hs ⊢
      cases hf : findChiro db cid with
      | none =>
        rw [hf] at hs
        exact absurd hs (by exact Bool.false_ne_true)
      | some cur =>
        have hf' : List.find? (fun x : Chiropractor => x.id == cid)
            db.chiropractors = some cur := hf
        refine ⟨_, rfl, rfl, rfl, rfl, rfl, rfl, ⟨cur, hf, rfl⟩, _, ?_, rfl⟩
        exact find?_set_after_update hf' (fun _ => rfl)
    · have hv' : ((idValidationErrs cid ++ (chiroValidate p).2).isEmpty)
          = false := by simpa using hv
      simp only [runOp, updateChiropractor, hv', Bool.not_false, if_true] at hs
      exact absurd hs (by exact Bool.false_ne_true)
  | chiroDelete cid =>
    by_cases hv : ((idValidationErrs cid).isEmpty) = true
    · simp only [runOp, deleteChiropractor, hv, Bool.not_true,
        Bool.false_eq_true, if_false] at hs ⊢
      cases hf : findChiro db cid with
      | none =>
        rw [hf] at hs
        exact absurd hs (by exact Bool.false_ne_true)
      | some cur =>
        exact ⟨_, rfl, rfl, rfl, rfl, rfl, rfl, ⟨cur, hf, rfl⟩, rfl⟩
    · have hv' : ((idValidationErrs cid).isEmpty) = false := by simpa using hv
      simp only [runOp, deleteChiropractor, hv', Bool.not_false, if_true] at hs
      exact absurd hs (by exact Bool.false_ne_true)
  | chiroRestore cid =>
    simp only [runOp, restoreChiropractor] at hs ⊢
    cases hf : findChiro db cid with
    | none =>
      rw [hf] at hs
      exact absurd hs (by exact Bool.false_ne_true)
    | some cur =>
      exact ⟨_, rfl, rfl, rfl, rfl, rfl, rfl, rfl, rfl⟩
  | chiroPermanentDelete cid =>
    simp only [runOp, permanentDeleteChiropractor] at hs ⊢
    cases hf : findChiro db cid with
    | none =>
      rw [hf] at hs
      exact absurd hs (by exact Bool.false_ne_true)
    | some cur =>
      exact ⟨_, rfl, rfl, rfl, rfl, rfl, rfl, ⟨cur, hf, rfl⟩, rfl⟩
  | blogCreate now p =>
    by_cases hv : ((blogValidate p).2.isEmpty) = true
    · simp only [runOp, createBlogPost, hv, Bool.not_true,
        Bool.false_eq_true, if_false] at hs ⊢
      by_cases hc1 : (db.blog_posts.any (fun q =>
          q.slug == createSlug ((blogValidate p).1.title.getD ""))) = true
      · rw [hc1] at hs ⊢
        simp only [eq_self_iff_true, if_true] at hs ⊢
        by_cases hc2 : (db.blog_posts.any (fun q => q.slug ==
            createSlugSuffixed ((blogValidate p).1.title.getD "")
              (toBase36 now))) = true
        · rw [hc2] at hs
          simp only [eq_self_iff_true, if_true] at hs
          exact absurd hs (by exact Bool.false_ne_true)
        · have hc2' : (db.blog_posts.any (fun q => q.slug ==
              createSlugSuffixed ((blogValidate p).1.title.getD "")
                (toBase36 now))) = false := by simpa using hc2
          rw [hc2'] at hs ⊢
          simp only [Bool.false_eq_true, if_false] at hs ⊢
          refine ⟨_, rfl, rfl, rfl, rfl, rfl, rfl, rfl, _, ?_, rfl⟩
          apply find?_append_new (fun q => q.id) db.blog_posts db.nextId hpb
          rfl
      · have hc1' : (db.blog_posts.any (fun q =>
            q.slug == createSlug ((blogValidate p).1.title.getD ""))) =
            false := by simpa using hc1
        rw [hc1'] at hs ⊢
        simp only [Bool.false_eq_true, if_false] at hs ⊢
        by_cases hc2 : (db.blog_posts.any (fun q =>
            q.slug == createSlug ((blogValidate p).1.title.getD ""))) = true
        · rw [hc1'] at hc2
          exact absurd hc2 (by exact Bool.false_ne_true)
        · rw [hc1'] at hs ⊢
          refine ⟨_, rfl, rfl, rfl, rfl, rfl, rfl, rfl, _, ?_, rfl⟩
          apply find?_append_new (fun q => q.id) db.blog_posts db.nextId hpb
          rfl
    · have hv' : ((blogValidate p).2.isEmpty) = false := by simpa using hv
      simp only [runOp, createBlogPost, hv', Bool.not_false, if_true] at hs
      exact absurd hs (by exact Bool.false_ne_true)
  | blogUpdate now pid p =>
    by_cases hv : ((idValidationErrs pid ++ (blogValidate p).2).isEmpty) = true
    · simp only [runOp, updateBlogPost, hv, Bool.not_true,
        Bool.false_eq_true, if_false] at hs ⊢
      cases hf : findPost db pid with
      | none =>
        rw [hf] at hs
        exact absurd hs (by exact Bool.false_ne_true)
      | some cur =>
        have hf' : List.find? (fun x : BlogPost => x.id == pid)
            db.blog_posts = some cur := hf
        refine ⟨_, rfl, rfl, rfl, rfl, rfl, rfl, ⟨cur, hf, rfl⟩, _, ?_, rfl⟩
        exact find?_set_after_update hf' (fun _ => rfl)
    · have hv' : ((idValidationErrs pid ++ (blogValidate p).2).isEmpty)
          = false := by simpa using hv
      simp only [runOp, updateBlogPost, hv', Bool.not_false, if_true] at hs
      exact absurd hs (by exact Bool.false_ne_true)
  | blogDelete pid =>
    by_cases hv : ((idValidationErrs pid).isEmpty) = true
    · simp only [runOp, deleteBlogPost, hv, Bool.not_true,
        Bool.false_eq_true, if_false] at hs ⊢
      cases hf : findPost db pid with
      | none =>
        rw [hf] at hs
        exact absurd hs (by exact Bool.false_ne_true)
      | some cur =>
        exact ⟨_, rfl, rfl, rfl, rfl, rfl, rfl, ⟨cur, hf, rfl⟩, rfl⟩
    · have hv' : ((idValidationErrs pid).isEmpty) = false := by simpa using hv
      simp only [runOp, deleteBlogPost, hv', Bool.not_false, if_true] at hs
      exact absurd hs (by exact Bool.false_ne_true)
  | blogTogglePublish now pid =>
    simp only [runOp, togglePublishBlogPost] at hs ⊢
    cases hf : findPost db pid with
    | none =>
      rw [hf] at hs
      exact absurd hs (by exact Bool.false_ne_true)
    | some cur =>
      have hf' : List.find? (fun x : BlogPost => x.id == pid)
          db.blog_posts = some cur := hf
      refine ⟨_, rfl, rfl, rfl, ?_, rfl, rfl, ⟨cur, hf, rfl⟩, ?_⟩
      · cases hb : cur.is_published
        · exact Or.inl rfl
        · exact Or.inr rfl
      · exact ⟨_, find?_set_after_update hf' (fun _ => rfl), rfl⟩
  | settingUpdate key value =>
    simp only [runOp, updateSetting] at hs ⊢
    cases hf : findSetting db key with
    | none =>
      rw [hf] at hs
      exact absurd hs (by exact Bool.false_ne_true)
    | some cur =>
      have hf' : List.find? (fun s : Setting => s.setting_key == key)
          db.site_settings = some cur := hf
      refine ⟨_, rfl, rfl, rfl, rfl, rfl, ⟨cur, hf, rfl, rfl⟩, ?_⟩
      exact ⟨_, find?_set_after_update hf' (fun _ => rfl), rfl⟩
  | settingsBulk body =>
    simp only [runOp, bulkUpdateSettings] at hs ⊢
    cases body with
    | none => exact absurd hs (by exact Bool.false_ne_true)
    | some kvs =>
      exact ⟨_, rfl, rfl, rfl, rfl, rfl, rfl, rfl, ⟨kvs, rfl, rfl⟩⟩
  | settingCreate p =>
    by_cases hv : ((settingsValidate p).2.isEmpty) = true
    · simp only [runOp, createSetting, hv, Bool.not_true,
        Bool.false_eq_true, if_false] at hs ⊢
      by_cases hex : (db.site_settings.any (fun s =>
          s.setting_key == (settingsValidate p).1.setting_key.getD "")) = true
      · rw [hex] at hs
        simp only [eq_self_iff_true, if_true] at hs
        exact absurd hs (by exact Bool.false_ne_true)
      · have hex' : (db.site_settings.any (fun s =>
            s.setting_key == (settingsValidate p).1.setting_key.getD "")) =
            false := by simpa using hex
        rw [hex'] at hs ⊢
        simp only [Bool.false_eq_true, if_false] at hs ⊢
        refine ⟨_, rfl, rfl, rfl, rfl, rfl, rfl, rfl, _, ?_, rfl, rfl⟩
        exact List.mem_append_right _ (List.mem_singleton.mpr rfl)
    · have hv' : ((settingsValidate p).2.isEmpty) = false := by simpa using hv
      simp only [runOp, createSetting, hv', Bool.not_false, if_true] at hs
      exact absurd hs (by exact Bool.false_ne_true)
  | settingDelete key =>
    simp only [runOp, deleteSetting] at hs ⊢
    by_cases hck : (["site_name", "site_description",
        "contact_email"].contains key) = true
    · rw [hck] at hs
      simp only [eq_self_iff_true, if_true] at hs
      exact absurd hs (by exact Bool.false_ne_true)
    · have hck' : (["site_name", "site_description",
          "contact_email"].contains key) = false := by simpa using hck
      rw [hck'] at hs ⊢
      simp only [Bool.false_eq_true, if_false] at hs ⊢
      cases hf : findSetting db key with
      | none =>
        rw [hf] at hs
        exact absurd hs (by exact Bool.false_ne_true)
      | some cur =>
        exact ⟨_, rfl, rfl, rfl, rfl, rfl, rfl, ⟨cur, hf, rfl⟩, rfl⟩
  | userCreate hash now p =>
    by_cases hv : ((newUserValidate p).2.isEmpty) = true
    · simp only [runOp, createUser, hv, Bool.not_true,
        Bool.false_eq_true, if_false] at hs ⊢
      by_cases hex : (db.users.any (fun u =>
          u.email == (newUserValidate p).1.email.getD "")) = true
      · rw [hex] at hs
        simp only [eq_self_iff_true, if_true] at hs
        exact absurd hs (by exact Bool.false_ne_true)
      · have hex' : (db.users.any (fun u =>
            u.email == (newUserValidate p).1.email.getD "")) = false := by
          simpa using hex
        rw [hex'] at hs ⊢
        simp only [Bool.false_eq_true, if_false] at hs ⊢
        exact ⟨_, rfl, rfl, rfl, rfl, rfl, rfl, rfl, rfl⟩
    · have hv' : ((newUserValidate p).2.isEmpty) = false := by simpa using hv
      simp only [runOp, createUser, hv', Bool.not_false, if_true] at hs
      exact absurd hs (by exact Bool.false_ne_true)
  | userToggle uid =>
    simp only [runOp, toggleUserActive] at hs ⊢
    by_cases hua : (uid == actor) = true
    · rw [hua] at hs
      simp only [eq_self_iff_true, if_true] at hs
      exact absurd hs (by exact Bool.false_ne_true)
    · have hua' : (uid == actor) = false := by simpa using hua
      rw [hua'] at hs ⊢
      simp only [Bool.false_eq_true, if_false] at hs ⊢
      cases hf : findUser db uid with
      | none =>
        rw [hf] at hs
        exact absurd hs (by exact Bool.false_ne_true)
      | some cur =>
        refine ⟨_, rfl, rfl, rfl, ?_, rfl, rfl, rfl, rfl⟩
        cases hb : cur.is_active
        · exact Or.inl rfl
        · exact Or.inr rfl

theorem C1_one_audit_entry_per_mutation_witness :
    dbC1W.wf
  ∧ ((runOp false 9 "ip" (.chiroDelete 1) dbC1W).1.isSuccess) = true
  ∧ ∃ e, (runOp false 9 "ip" (.chiroDelete 1) dbC1W).2.audit_log =
        dbC1W.audit_log ++ [e]
      ∧ auditContract 9 "ip" (.chiroDelete 1) dbC1W
          (runOp false 9 "ip" (.chiroDelete 1) dbC1W).2 e :=
  ⟨by decide, by decide,
   C1_one_audit_entry_per_mutation 9 "ip" (.chiroDelete 1) dbC1W
     (by decide) (by decide)⟩
